import Mathlib

/-
Verification of the data pipeline in src/app.py (ChartED Solutions portal).

The pandas/streamlit code is shallowly embedded as follows:
* a spreadsheet cell is `Val` (a rational number, a string, or NaN);
* a data-frame row is an association list `Row`, a data frame is `Table`;
* `random.uniform(a, b)` is modelled with an explicit draw `u` from [0, 1)
  as `a + (b - a) * u` (`random.uniform` is `a + (b-a) * random.random()`
  and `random.random()` draws from [0, 1));
* Python code that can raise returns `Except String _`; the `try ... except`
  wrappers of `process_nslds_file` and `merge_data` correspond to the
  functions returning `Except.error msg` instead of raising.
-/

set_option maxHeartbeats 1000000

namespace ChartedPortal

/-- A scalar cell value of a parsed spreadsheet: a number, a string, or a
missing value (pandas NaN). -/
inductive Val where
  | num (q : ℚ)
  | str (s : String)
  | na
deriving DecidableEq, Repr

/-- A data-frame row, as an association list from column name to cell value
(the view `row.to_dict()` used by the code). -/
abbrev Row := List (String × Val)

/-- Cell of a row at a column; a missing entry reads as NaN. -/
def rowGet (r : Row) (c : String) : Val := (List.lookup c r).getD Val.na

/-- Column assignment at row level: replace the first entry of column `c`,
or append the column if the row does not have it. -/
def rowSet (r : Row) (c : String) (v : Val) : Row :=
  match r with
  | [] => [(c, v)]
  | p :: ps => if p.1 = c then (c, v) :: ps else p :: rowSet ps c v

/-- A parsed data frame: the column list and the rows. -/
structure Table where
  cols : List String
  rows : List Row
deriving DecidableEq, Repr

instance {ε α : Type} [DecidableEq ε] [DecidableEq α] : DecidableEq (Except ε α) := fun a b =>
  match a, b with
  | .error x, .error y =>
    if h : x = y then isTrue (by subst h; rfl) else isFalse (by simp [h])
  | .ok x, .ok y =>
    if h : x = y then isTrue (by subst h; rfl) else isFalse (by simp [h])
  | .error _, .ok _ => isFalse (by simp)
  | .ok _, .error _ => isFalse (by simp)

theorem rowGet_nil (c : String) : rowGet [] c = Val.na := rfl

theorem rowGet_cons (p : String × Val) (ps : List (String × Val)) (c : String) :
    rowGet (p :: ps) c = if p.1 = c then p.2 else rowGet ps c := by
  by_cases h : p.1 = c
  · simp [rowGet, List.lookup, h]
  · simp only [rowGet, List.lookup]
    have hb : (c == p.1) = false := beq_eq_false_iff_ne.mpr (Ne.symm h)
    simp [hb, h]

theorem rowGet_set_self (r : Row) (c : String) (v : Val) :
    rowGet (rowSet r c v) c = v := by
  induction r with
  | nil => simp [rowSet, rowGet_cons]
  | cons p ps ih =>
    by_cases h : p.1 = c
    · simp [rowSet, h, rowGet_cons]
    · simp [rowSet, h, rowGet_cons, ih]

theorem rowGet_set_ne (r : Row) (c d : String) (v : Val) (h : d ≠ c) :
    rowGet (rowSet r c v) d = rowGet r d := by
  induction r with
  | nil => simp [rowSet, rowGet_cons, rowGet_nil, Ne.symm h]
  | cons p ps ih =>
    by_cases hp : p.1 = c
    · subst hp
      simp [rowSet, rowGet_cons, Ne.symm h]
    · simp [rowSet, hp, rowGet_cons, ih]

/-- `random.uniform a b` with the underlying draw `u` of `random.random()`
made explicit: `a + (b - a) * u`. -/
def uniform (a b u : ℚ) : ℚ := a + (b - a) * u

/-- Embedding of `calculate_risk_score` (src/app.py:70-79).  `pd.isna` is true
exactly on the NaN cell; comparing a string with `30` raises `TypeError` in
Python 3, which the embedding surfaces as an error value. -/
def calculate_risk_score (days_delinquent : Val) (u : ℚ) : Except String ℚ :=
  match days_delinquent with
  | .na => .ok (uniform 0 0.3 u)
  | .num d =>
      .ok (if d < 30 then uniform 0 0.3 u
           else if d < 90 then uniform 0.3 0.6 u
           else if d < 180 then uniform 0.6 0.8 u
           else uniform 0.8 1.0 u)
  | .str _ => .error "TypeError: unsupported comparison between instances of str and int"

/-- Embedding of `get_risk_tier` (src/app.py:113-120). -/
def get_risk_tier (score : ℚ) : String :=
  if score ≥ 0.7 then "HIGH" else if score ≥ 0.4 then "MEDIUM" else "LOW"

/-- Numeric height of a tier, used to express monotonicity of `get_risk_tier`. -/
def tierRank (t : String) : ℕ := if t = "HIGH" then 2 else if t = "MEDIUM" then 1 else 0

/-- C1: for every draw `u ∈ [0,1)` of the random source, the score returned by
`calculate_risk_score` lies in the bucket range selected by the delinquency
thresholds: `d < 30` gives a score in `[0, 0.3)`; `30 ≤ d < 90` gives
`[0.3, 0.6)`; `90 ≤ d < 180` gives `[0.6, 0.8)`; `d ≥ 180` gives `[0.8, 1]`;
and a NaN delinquency is scored in the lowest bucket `[0, 0.3)`. -/
theorem C1_buckets (u : ℚ) (hu0 : 0 ≤ u) (hu1 : u < 1) :
    (∀ d : ℚ, d < 30 →
      ∃ s, calculate_risk_score (Val.num d) u = .ok s ∧ 0 ≤ s ∧ s < 0.3) ∧
    (∀ d : ℚ, 30 ≤ d → d < 90 →
      ∃ s, calculate_risk_score (Val.num d) u = .ok s ∧ 0.3 ≤ s ∧ s < 0.6) ∧
    (∀ d : ℚ, 90 ≤ d → d < 180 →
      ∃ s, calculate_risk_score (Val.num d) u = .ok s ∧ 0.6 ≤ s ∧ s < 0.8) ∧
    (∀ d : ℚ, 180 ≤ d →
      ∃ s, calculate_risk_score (Val.num d) u = .ok s ∧ 0.8 ≤ s ∧ s ≤ 1) ∧
    (∃ s, calculate_risk_score Val.na u = .ok s ∧ 0 ≤ s ∧ s < 0.3) := by
  refine ⟨?_, ?_, ?_, ?_, ?_⟩
  · intro d hd
    refine ⟨uniform 0 0.3 u, ?_, ?_, ?_⟩
    · simp [calculate_risk_score, hd]
    · unfold uniform; nlinarith
    · unfold uniform; nlinarith
  · intro d h30 h90
    refine ⟨uniform 0.3 0.6 u, ?_, ?_, ?_⟩
    · simp [calculate_risk_score, not_lt.mpr h30, h90]
    · unfold uniform; nlinarith
    · unfold uniform; nlinarith
  · intro d h90 h180
    refine ⟨uniform 0.6 0.8 u, ?_, ?_, ?_⟩
    · have h30 : ¬ d < 30 := by linarith
      have h90n : ¬ d < 90 := by linarith
      simp [calculate_risk_score, h30, h90n, h180]
    · unfold uniform; nlinarith
    · unfold uniform; nlinarith
  · intro d h180
    refine ⟨uniform 0.8 1.0 u, ?_, ?_, ?_⟩
    · have h30 : ¬ d < 30 := by linarith
      have h90 : ¬ d < 90 := by linarith
      have h180n : ¬ d < 180 := by linarith
      simp [calculate_risk_score, h30, h90, h180n]
    · unfold uniform; nlinarith
    · unfold uniform; nlinarith
  · refine ⟨uniform 0 0.3 u, rfl, ?_, ?_⟩
    · unfold uniform; nlinarith
    · unfold uniform; nlinarith

theorem C1_buckets_witness :
    (0 : ℚ) ≤ 1/2 ∧ (1/2 : ℚ) < 1 ∧ (45 : ℚ) < 90 ∧
    ∃ s, calculate_risk_score (Val.num 45) (1/2) = .ok s ∧ 0.3 ≤ s ∧ s < 0.6 := by
  refine ⟨by norm_num, by norm_num, by norm_num, ?_⟩
  exact (C1_buckets (1/2) (by norm_num) (by norm_num)).2.1 45 (by norm_num) (by norm_num)

/-- C2: `get_risk_tier` is a pure deterministic step function with breakpoints
0.4 and 0.7: scores `≥ 0.7` map to HIGH, scores in `[0.4, 0.7)` to MEDIUM and
lower scores to LOW; it is monotone in the score, and in particular
`get_risk_tier 0.69 = MEDIUM`, `get_risk_tier 0.70 = HIGH`,
`get_risk_tier 0.39 = LOW`, `get_risk_tier 0.40 = MEDIUM`. -/
theorem C2_step_function :
    (∀ s : ℚ, (0.7 ≤ s → get_risk_tier s = "HIGH") ∧
      (0.4 ≤ s → s < 0.7 → get_risk_tier s = "MEDIUM") ∧
      (s < 0.4 → get_risk_tier s = "LOW")) ∧
    (∀ s t : ℚ, s ≤ t → tierRank (get_risk_tier s) ≤ tierRank (get_risk_tier t)) ∧
    get_risk_tier 0.69 = "MEDIUM" ∧ get_risk_tier 0.70 = "HIGH" ∧
    get_risk_tier 0.39 = "LOW" ∧ get_risk_tier 0.40 = "MEDIUM" := by
  refine ⟨?_, ?_, by norm_num [get_risk_tier], by norm_num [get_risk_tier],
    by norm_num [get_risk_tier], by norm_num [get_risk_tier]⟩
  · intro s
    refine ⟨?_, ?_, ?_⟩
    · intro h; simp [get_risk_tier, h]
    · intro h1 h2
      have hn : ¬ s ≥ 0.7 := by linarith
      simp [get_risk_tier, hn, h1]
    · intro h
      have h7 : ¬ s ≥ 0.7 := by linarith
      have h4 : ¬ s ≥ 0.4 := by linarith
      simp [get_risk_tier, h7, h4]
  · intro s t hst
    unfold get_risk_tier
    split_ifs <;> simp [tierRank] <;> linarith

theorem C2_step_function_witness :
    (0 : ℚ) ≤ 1/2 ∧ tierRank (get_risk_tier 0) ≤ tierRank (get_risk_tier (1/2)) ∧
    (0.7 : ℚ) ≤ 0.8 ∧ get_risk_tier 0.8 = "HIGH" := by
  refine ⟨by norm_num, ?_, by norm_num, ?_⟩
  · exact C2_step_function.2.1 0 (1/2) (by norm_num)
  · exact (C2_step_function.1 0.8).1 (by norm_num)

/-- `df.rename(columns={old: new})` restricted to one entry, applied only when
the column is present, as in the renaming loops of `process_nslds_file` and
`process_sis_file` (src/app.py:247-249, 285-287). -/
def renameCol (t : Table) (old new : String) : Table :=
  if old ∈ t.cols then
    { cols := t.cols.map (fun c => if c = old then new else c),
      rows := t.rows.map (fun r => r.map (fun p => if p.1 = old then (new, p.2) else p)) }
  else t

/-- The renaming loop over a fixed column mapping. -/
def renameAll (t : Table) (m : List (String × String)) : Table :=
  m.foldl (fun acc p => renameCol acc p.1 p.2) t

/-- Column mapping of `process_nslds_file` (src/app.py:237-245). -/
def nslds_column_mapping : List (String × String) :=
  [("Borrower SSN", "ssn"), ("Borrower First Name", "first_name"),
   ("Borrower Last Name", "last_name"), ("E-mail", "email"),
   ("Days Delinquent", "days_delinquent"), ("OPB", "outstanding_balance"),
   ("Loan Type", "loan_type")]

/-- Column mapping of `process_sis_file` (src/app.py:272-283). -/
def sis_column_mapping : List (String × String) :=
  [("Student ID", "student_id"), ("SSN", "ssn"), ("First Name", "first_name"),
   ("Last Name", "last_name"), ("Email", "email"), ("Major", "major"),
   ("Program", "program"), ("GPA", "gpa"), ("Academic Standing", "academic_standing"),
   ("Enrollment Status", "enrollment_status")]

/-- Left-pad a decimal numeral with zeros to a width, as `{n:06d}` does. -/
def zeroPad (w n : ℕ) : String :=
  let s := toString n
  String.mk (List.replicate (w - s.length) '0') ++ s

/-- The synthesized student identifier of row `i`: the Python format string
`f"STU{i+1000:06d}"` (src/app.py:252). -/
def stuId (i : ℕ) : String := "STU" ++ zeroPad 6 (i + 1000)

/-- `if 'student_id' not in df.columns: df['student_id'] = [f"STU{i+1000:06d}" ...]`
(src/app.py:251-252). -/
def addStudentIds (t : Table) : Table :=
  if "student_id" ∈ t.cols then t
  else { cols := t.cols ++ ["student_id"],
         rows := t.rows.enum.map (fun p => rowSet p.2 "student_id" (Val.str (stuId p.1))) }

/-- `Series.fillna(0)` at cell level: only the NaN cell is replaced by 0;
strings and numbers pass through unchanged. -/
def valFillna (v : Val) : Val :=
  match v with
  | .na => .num 0
  | _ => v

/-- `df[c] = df.get(c, 0).fillna(0)` (src/app.py:254-255).  When the column is
present, `df.get` returns the column and NaN cells become 0.  When it is
absent, `df.get(c, 0)` returns the scalar `0`, and `(0).fillna(0)` raises
`AttributeError` (an `int` has no `fillna`), which the surrounding `try`
turns into an error result. -/
def fillnaColumn (t : Table) (c : String) : Except String Table :=
  if c ∈ t.cols then
    .ok { cols := t.cols,
          rows := t.rows.map (fun r => rowSet r c (valFillna (rowGet r c))) }
  else .error "AttributeError: int object has no attribute fillna"

/-- Collect a list of fallible computations, stopping at the first error, as a
pandas `apply` raises at the first failing row. -/
def collectE {α : Type} : List (Except String α) → Except String (List α)
  | [] => .ok []
  | .error m :: _ => .error m
  | .ok a :: es =>
    match collectE es with
    | .ok l => .ok (a :: l)
    | .error m => .error m

/-- `df['risk_score'] = df['days_delinquent'].apply(calculate_risk_score)`
(src/app.py:257), with one independent draw `us i` per row. -/
def addRiskScores (t : Table) (us : ℕ → ℚ) : Except String Table :=
  match collectE (t.rows.enum.map (fun p =>
      match calculate_risk_score (rowGet p.2 "days_delinquent") (us p.1) with
      | .ok s => .ok (rowSet p.2 "risk_score" (Val.num s))
      | .error m => .error m)) with
  | .ok rs => .ok { cols := t.cols ++ ["risk_score"], rows := rs }
  | .error m => .error m

/-- `get_risk_tier` applied to a cell.  The pipeline only ever applies it to
the numeric `risk_score` column it has just built; a NaN compares false with
both thresholds and lands in LOW, and a string cell would raise. -/
def tierOfVal (v : Val) : Except String String :=
  match v with
  | .num q => .ok (get_risk_tier q)
  | .na => .ok "LOW"
  | .str _ => .error "TypeError: unsupported comparison between instances of str and float"

/-- `df['risk_tier'] = df['risk_score'].apply(get_risk_tier)` (src/app.py:258). -/
def addRiskTiers (t : Table) : Except String Table :=
  match collectE (t.rows.map (fun r =>
      match tierOfVal (rowGet r "risk_score") with
      | .ok tier => .ok (rowSet r "risk_tier" (Val.str tier))
      | .error m => .error m)) with
  | .ok rs => .ok { cols := t.cols ++ ["risk_tier"], rows := rs }
  | .error m => .error m

/-- The table reaching line 254 of `process_nslds_file`: renamed headers and
(if needed) synthesized student identifiers. -/
def ingestPrepared (t : Table) : Table := addStudentIds (renameAll t nslds_column_mapping)

/-- Lines 254-258 of `process_nslds_file` from the prepared table: the two
`fillna` assignments, the risk scores, and the risk tiers, stopping at the
first raised exception. -/
def processFrom (t2 : Table) (us : ℕ → ℚ) : Except String Table :=
  match fillnaColumn t2 "days_delinquent" with
  | .error m => .error m
  | .ok t3 =>
    match fillnaColumn t3 "outstanding_balance" with
    | .error m => .error m
    | .ok t4 =>
      match addRiskScores t4 us with
      | .error m => .error m
      | .ok t5 => addRiskTiers t5

/-- Embedding of `process_nslds_file` (src/app.py:229-262), starting from the
parsed table (the `pd.read_csv`/`read_excel` step is outside the model).  The
`try ... except` wrapper corresponds to the `Except` result. -/
def process_nslds_file (t : Table) (us : ℕ → ℚ) : Except String Table :=
  processFrom (ingestPrepared t) us

/-- Embedding of `process_sis_file` (src/app.py:264-291): only the renaming
loop acts on the parsed table. -/
def process_sis_file (t : Table) : Table :=
  renameAll t sis_column_mapping

/-- Decimal numeral value of a character list, `none` if empty or non-digit. -/
def digitsVal (l : List Char) : Option ℕ :=
  if l = [] then none
  else l.foldl (fun acc c =>
    match acc with
    | none => none
    | some n => if c.isDigit then some (n * 10 + (c.toNat - 48)) else none) (some 0)

/-- Python `float(s)` on the decimal string forms `[-]digits[.digits]` used by
this pipeline (exotic forms such as exponents are not modelled; no claim
depends on them). -/
def parseFloat (s : String) : Option ℚ :=
  let neg := s.startsWith "-"
  let body := if neg then s.drop 1 else s
  let sgn : ℚ := if neg then -1 else 1
  match body.splitOn "." with
  | [a] => (digitsVal a.toList).map (fun n => sgn * n)
  | [a, b] =>
    match digitsVal a.toList, digitsVal b.toList with
    | some ia, some ib => some (sgn * ((ia : ℚ) + (ib : ℚ) / 10 ^ b.length))
    | _, _ => none
  | _ => none

/-- Python truthiness of a cell: 0 and the empty string are falsy; NaN is a
truthy float. -/
def valTruthy (v : Val) : Bool :=
  match v with
  | .num q => decide (q ≠ 0)
  | .str s => decide (s ≠ "")
  | .na => true

/-- The GPA bucket penalties of `calculate_predictive_score` (src/app.py:89-94). -/
def gpaBucket (g : ℚ) : ℚ :=
  if g < 2.0 then 0.3 else if g < 2.5 then 0.2 else if g < 3.0 then 0.1 else 0

/-- The GPA factor (src/app.py:86-94): absent key gives 0; a falsy value
(`0` or `""`) is replaced by the default GPA 3.0 before bucketing; a NaN cell
is truthy, becomes `float('nan')`, and compares false with every threshold;
an unparsable string raises `ValueError`. -/
def gpaFactorOf (r : Row) : Except String ℚ :=
  match List.lookup "gpa" r with
  | none => .ok 0
  | some v =>
    if valTruthy v then
      match v with
      | .num g => .ok (gpaBucket g)
      | .na => .ok 0
      | .str s =>
        match parseFloat s with
        | some g => .ok (gpaBucket g)
        | none => .error "ValueError: could not convert string to float"
    else .ok (gpaBucket 3.0)

/-- The enrollment factor (src/app.py:97-101). -/
def enrollmentFactorOf (r : Row) : ℚ :=
  if List.lookup "enrollment_status" r = some (Val.str "Part-time") then 0.15
  else if List.lookup "enrollment_status" r = some (Val.str "Leave of Absence") then 0.25
  else 0

/-- The academic-standing factor (src/app.py:104-108). -/
def standingFactorOf (r : Row) : ℚ :=
  if List.lookup "academic_standing" r = some (Val.str "Academic Warning") then 0.2
  else if List.lookup "academic_standing" r = some (Val.str "Academic Probation") then 0.3
  else 0

/-- Embedding of `calculate_predictive_score` (src/app.py:81-111) on
`row.to_dict()`, with the draw `u` of the base risk score made explicit. -/
def calculate_predictive_score (student_data : Row) (u : ℚ) : Except String ℚ :=
  match calculate_risk_score
      ((List.lookup "days_delinquent" student_data).getD (Val.num 0)) u with
  | .error m => .error m
  | .ok base_risk =>
    match gpaFactorOf student_data with
    | .error m => .error m
    | .ok gpa_factor =>
      .ok (min 1.0 (base_risk + gpa_factor + enrollmentFactorOf student_data +
        standingFactorOf student_data))

/-- Suffixing of an overlapping left column by `pd.merge(..., suffixes=('_nslds', '_sis'))`:
a non-key column also present in the right table gets `_nslds`. -/
def sufL (bcols : List String) (k c : String) : String :=
  if c ≠ k ∧ c ∈ bcols then c ++ "_nslds" else c

/-- Suffixing of an overlapping right column: a non-key column also present in
the left table gets `_sis`. -/
def sufR (acols : List String) (k c : String) : String :=
  if c ≠ k ∧ c ∈ acols then c ++ "_sis" else c

/-- One merged row: the left row with overlapping columns suffixed, followed by
the right row minus its key column, suffixed likewise. -/
def combineRow (acols bcols : List String) (k : String) (ra rb : Row) : Row :=
  ra.map (fun p => (sufL bcols k p.1, p.2)) ++
  (rb.filter (fun p => decide (p.1 ≠ k))).map (fun p => (sufR acols k p.1, p.2))

/-- `pd.merge(a, b, on=k, how='inner', suffixes=('_nslds', '_sis'))`: for each
left row in order, one merged row per right row with an equal key value. -/
def mergeOn (a b : Table) (k : String) : Table :=
  { cols := a.cols.map (sufL b.cols k) ++
      (b.cols.filter (fun c => decide (c ≠ k))).map (sufR a.cols k),
    rows := a.rows.flatMap (fun ra =>
      (b.rows.filter (fun rb => decide (rowGet rb k = rowGet ra k))).map
        (fun rb => combineRow a.cols b.cols k ra rb)) }

/-- The predictive columns of `merge_data` (src/app.py:305-306): per-row
`calculate_predictive_score` (draw `us i` for row `i`), then `get_risk_tier`
of the scores. -/
def addPredictive (t : Table) (us : ℕ → ℚ) : Except String Table :=
  match collectE (t.rows.enum.map (fun p =>
      match calculate_predictive_score p.2 (us p.1) with
      | .ok s => .ok (rowSet (rowSet p.2 "predictive_score" (Val.num s))
          "predictive_tier" (Val.str (get_risk_tier s)))
      | .error m => .error m)) with
  | .ok rs => .ok { cols := t.cols ++ ["predictive_score", "predictive_tier"], rows := rs }
  | .error m => .error m

/-- Lines 303-308 of `merge_data`: the predictive columns are attached exactly
when both `gpa` and `academic_standing` are columns of the merged table. -/
def mergePost (merged : Table) (us : ℕ → ℚ) : Except String Table :=
  if "gpa" ∈ merged.cols ∧ "academic_standing" ∈ merged.cols then
    addPredictive merged us
  else .ok merged

/-- Embedding of `merge_data` (src/app.py:293-310). -/
def merge_data (nslds_df sis_df : Table) (us : ℕ → ℚ) : Except String Table :=
  if "ssn" ∈ nslds_df.cols ∧ "ssn" ∈ sis_df.cols then
    mergePost (mergeOn nslds_df sis_df "ssn") us
  else if "student_id" ∈ nslds_df.cols ∧ "student_id" ∈ sis_df.cols then
    mergePost (mergeOn nslds_df sis_df "student_id") us
  else
    .error "No common identifier found"

/-- Floor of a rational (floor division of numerator by denominator). -/
def rfloor (q : ℚ) : ℤ := Int.fdiv q.num q.den

/-- Round to the nearest integer, ties to even, as `numpy.round` does. -/
def roundHalfEven (x : ℚ) : ℤ :=
  let f := rfloor x
  let r := x - f
  if r < 1/2 then f else if 1/2 < r then f + 1 else if f % 2 = 0 then f else f + 1

/-- `.round(2)`: round to 2 decimal places, ties to even. -/
def round2 (x : ℚ) : ℚ := (roundHalfEven (x * 100) : ℚ) / 100

/-- The `major` cells of a table, without NaN (`groupby` drops NaN keys). -/
def majorsOf (t : Table) : List Val :=
  (t.rows.map (fun r => rowGet r "major")).filter (fun v => decide (v ≠ Val.na))

/-- Distinct values in first-occurrence (discovery) order. -/
def firstDedup : List Val → List Val
  | [] => []
  | v :: vs => v :: firstDedup (vs.filter (fun w => decide (w ≠ v)))
termination_by l => l.length
decreasing_by
  simp only [List.length_cons]
  exact Nat.lt_succ_of_le (List.length_filter_le _ _)

/-- Comparison used when `groupby` sorts group keys (string keys compare
lexicographically; NaN keys are already dropped). -/
def valLe (a b : Val) : Bool :=
  match a, b with
  | .na, _ => true
  | _, .na => false
  | .num x, .num y => decide (x ≤ y)
  | .num _, .str _ => true
  | .str _, .num _ => false
  | .str x, .str y => decide (x ≤ y)

/-- Stable insertion of `x` into a sorted list: `x` goes before the first
element it compares `le` to, hence after existing equal elements. -/
def insertBy {α : Type} (le : α → α → Bool) (x : α) : List α → List α
  | [] => [x]
  | y :: ys => if le x y then x :: y :: ys else y :: insertBy le x ys

/-- Stable insertion sort (the model of a stable ascending sort). -/
def sortBy {α : Type} (le : α → α → Bool) : List α → List α
  | [] => []
  | x :: xs => insertBy le x (sortBy le xs)

/-- One row of the `analyze_by_major` result (src/app.py:317-330). -/
structure AggRow where
  major : Val
  avg_risk : ℚ
  student_count : ℕ
  avg_balance : ℚ
  total_balance : ℚ
  avg_delinquent_days : ℚ
  risk_tier : String
  employment_rate : ℚ
  avg_salary : ℚ
  debt_to_income : ℚ
deriving DecidableEq, Repr

/-- The salary table of `simulate_salary_by_major` (src/app.py:336-349). -/
def salary_ranges (m : Val) : ℚ × ℚ :=
  match m with
  | .str "Engineering" => (65000, 85000)
  | .str "Computer Science" => (70000, 90000)
  | .str "Business Administration" => (45000, 65000)
  | .str "Nursing" => (55000, 70000)
  | .str "Education" => (35000, 50000)
  | .str "Liberal Arts" => (30000, 45000)
  | .str "Psychology" => (35000, 50000)
  | .str "Criminal Justice" => (40000, 55000)
  | .str "Biology" => (40000, 60000)
  | .str "Marketing" => (40000, 60000)
  | _ => (35000, 55000)

/-- `simulate_salary_by_major` (src/app.py:334-350): `random.randint(lo, hi)`
modelled with an explicit draw from [0, 1] stretched over the range. -/
def simulate_salary_by_major (draw : ℚ) (major : Val) : ℚ :=
  (salary_ranges major).1 + ((salary_ranges major).2 - (salary_ranges major).1) * draw

/-- Rows of a group: the rows whose `major` cell equals the group key. -/
def groupRows (t : Table) (m : Val) : List Row :=
  t.rows.filter (fun r => decide (rowGet r "major" = m))

/-- Numeric cells of a column over some rows; NaN is skipped, as pandas
`mean`/`sum` do.  A string cell makes the pandas column object-typed and the
`groupby` mean/sum aggregation raise `TypeError` — that error path is taken in
`analyze_by_major` via `hasStrCell` before this extraction is used, so under
that guard the cells skipped here are exactly the NaN ones. -/
def numsOf (rows : List Row) (c : String) : List ℚ :=
  rows.filterMap (fun r =>
    match rowGet r c with
    | .num q => some q
    | _ => none)

/-- Whether some cell of a column is a string over the given rows.  One string
cell makes the whole pandas column object-typed, and the `groupby`
mean/sum aggregation then raises `TypeError` on it. -/
def hasStrCell (rows : List Row) (c : String) : Bool :=
  rows.any (fun r =>
    match rowGet r c with
    | .str _ => true
    | _ => false)

/-- Pandas `count` aggregation: number of non-NaN cells of a column. -/
def countNonNa (rows : List Row) (c : String) : ℕ :=
  (rows.filter (fun r => decide (rowGet r c ≠ Val.na))).length

/-- Mean of a list of rationals. -/
def listMean (l : List ℚ) : ℚ := l.sum / l.length

/-- The aggregate row of one `major` group (src/app.py:317-330): means/counts
and sums rounded to 2 decimals, the group tier from the rounded mean risk,
then the ROI columns. -/
def mkAggRow (t : Table) (draw : ℚ) (m : Val) : AggRow :=
  let grp := groupRows t m
  let avg_risk := round2 (listMean (numsOf grp "risk_score"))
  let avg_balance := round2 (listMean (numsOf grp "outstanding_balance"))
  let salary := simulate_salary_by_major draw m
  { major := m
    avg_risk := avg_risk
    student_count := countNonNa grp "risk_score"
    avg_balance := avg_balance
    total_balance := round2 ((numsOf grp "outstanding_balance").sum)
    avg_delinquent_days := round2 (listMean (numsOf grp "days_delinquent"))
    risk_tier := get_risk_tier avg_risk
    employment_rate := max 0.4 (0.9 - avg_risk)
    avg_salary := salary
    debt_to_income := avg_balance / (salary * 0.8) }

/-- The aggregate rows in `groupby` order: distinct majors of the table,
sorted ascending (pandas `groupby` sorts group keys), one aggregate row per
group, with one salary draw per row. -/
def aggListOf (t : Table) (sal : ℕ → ℚ) : List AggRow :=
  (sortBy valLe (firstDedup (majorsOf t))).enum.map (fun p => mkAggRow t (sal p.1) p.2)

/-- Embedding of `analyze_by_major` (src/app.py:312-332).  `None` input or a
missing `major` column give `None`; a missing aggregation column raises
`KeyError` inside pandas, and a string cell in one of the aggregated columns
makes the mean/sum aggregation raise `TypeError` (there is no `try` here, so
both errors propagate to the caller).  The final
`sort_values('avg_risk', ascending=False)` is the reverse of a stable
ascending sort: pandas sorts descending by reversing an ascending argsort,
so ties end up in reverse of the `groupby` key order. -/
def analyze_by_major (data : Option Table) (sal : ℕ → ℚ) :
    Except String (Option (List AggRow)) :=
  match data with
  | none => .ok none
  | some t =>
    if "major" ∈ t.cols then
      if "risk_score" ∈ t.cols ∧ "outstanding_balance" ∈ t.cols ∧
          "days_delinquent" ∈ t.cols then
        if hasStrCell t.rows "risk_score" ∨ hasStrCell t.rows "outstanding_balance" ∨
            hasStrCell t.rows "days_delinquent" then
          .error "TypeError: agg function failed on non-numeric column"
        else
          .ok (some ((sortBy (fun x y : AggRow => decide (x.avg_risk ≤ y.avg_risk))
            (aggListOf t sal)).reverse))
      else .error "KeyError: column not found"
    else .ok none

theorem collectE_ok_forall₂ {α : Type} :
    ∀ {es : List (Except String α)} {l : List α}, collectE es = .ok l →
      List.Forall₂ (fun e a => e = .ok a) es l := by
  intro es
  induction es with
  | nil => intro l h; cases h; constructor
  | cons e es ih =>
    intro l h
    cases e with
    | error m => simp [collectE] at h
    | ok a =>
      cases hrec : collectE es with
      | error m => rw [collectE, hrec] at h; cases h
      | ok l2 =>
        rw [collectE, hrec] at h
        cases h
        exact List.Forall₂.cons rfl (ih hrec)

theorem collectE_error_of_mem {α : Type} {m : String} :
    ∀ {es : List (Except String α)}, Except.error m ∈ es →
      ∃ m2, collectE es = .error m2 := by
  intro es
  induction es with
  | nil => intro h; cases h
  | cons e es ih =>
    intro h
    rcases List.mem_cons.mp h with h1 | h2
    · exact ⟨m, by rw [← h1]; simp [collectE]⟩
    · rcases ih h2 with ⟨m2, hm2⟩
      cases e with
      | error m3 => exact ⟨m3, by simp [collectE]⟩
      | ok a => exact ⟨m2, by simp [collectE, hm2]⟩

theorem collectE_ok_of_all_ok {α : Type} :
    ∀ {es : List (Except String α)}, (∀ e ∈ es, ∃ a, e = .ok a) →
      ∃ l, collectE es = .ok l := by
  intro es
  induction es with
  | nil => intro _; exact ⟨[], rfl⟩
  | cons e es ih =>
    intro h
    rcases h e (List.mem_cons_self e es) with ⟨a, ha⟩
    rcases ih (fun x hx => h x (List.mem_cons_of_mem e hx)) with ⟨l, hl⟩
    exact ⟨a :: l, by rw [ha, collectE, hl]⟩

theorem forall₂_trans {α β γ : Type} {R : α → β → Prop} {S : β → γ → Prop}
    {T : α → γ → Prop} (hcomp : ∀ a b c, R a b → S b c → T a c) :
    ∀ {l1 : List α} {l2 : List β} {l3 : List γ},
      List.Forall₂ R l1 l2 → List.Forall₂ S l2 l3 → List.Forall₂ T l1 l3 := by
  intro l1 l2 l3 h1
  induction h1 generalizing l3 with
  | nil => intro h2; cases h2; constructor
  | cons hab htail ih =>
    intro h2
    cases h2 with
    | cons hbc htail2 => exact List.Forall₂.cons (hcomp _ _ _ hab hbc) (ih htail2)

theorem forall₂_map_self {α β : Type} (f : α → β) (l : List α) :
    List.Forall₂ (fun a b => b = f a) l (l.map f) := by
  induction l with
  | nil => constructor
  | cons a l ih => exact List.Forall₂.cons rfl ih

theorem forall₂_map_eq {α β γ : Type} {l1 : List α} {l2 : List β} {f : α → γ} {g : β → γ}
    (h : List.Forall₂ (fun a b => g b = f a) l1 l2) : l2.map g = l1.map f := by
  induction h with
  | nil => rfl
  | cons hab _ ih => simp [ih, hab]

theorem forall₂_mem_right {α β : Type} {R : α → β → Prop} :
    ∀ {l1 : List α} {l2 : List β}, List.Forall₂ R l1 l2 →
      ∀ b ∈ l2, ∃ a ∈ l1, R a b := by
  intro l1 l2 h
  induction h with
  | nil => intro b hb; cases hb
  | cons hab _ ih =>
    intro b hb
    rcases List.mem_cons.mp hb with h1 | h2
    · exact ⟨_, List.mem_cons_self _ _, h1 ▸ hab⟩
    · rcases ih b h2 with ⟨a, ha, hr⟩
      exact ⟨a, List.mem_cons_of_mem _ ha, hr⟩

theorem forall₂_mem_left {α β : Type} {R : α → β → Prop} :
    ∀ {l1 : List α} {l2 : List β}, List.Forall₂ R l1 l2 →
      ∀ a ∈ l1, ∃ b ∈ l2, R a b := by
  intro l1 l2 h
  induction h with
  | nil => intro a ha; cases ha
  | cons hab _ ih =>
    intro a ha
    rcases List.mem_cons.mp ha with h1 | h2
    · exact ⟨_, List.mem_cons_self _ _, h1 ▸ hab⟩
    · rcases ih a h2 with ⟨b, hb, hr⟩
      exact ⟨b, List.mem_cons_of_mem _ hb, hr⟩

theorem forall₂_enum_snd {α β : Type} {R : α → β → Prop} :
    ∀ {l : List α} {l2 : List β} {n : ℕ},
      List.Forall₂ (fun p b => R p.2 b) (List.enumFrom n l) l2 → List.Forall₂ R l l2 := by
  intro l
  induction l with
  | nil => intro l2 n h; cases h; constructor
  | cons a l ih =>
    intro l2 n h
    cases h with
    | cons hab htail => exact List.Forall₂.cons hab (ih htail)

theorem enumFrom_map_fst_fun {α β : Type} (f : ℕ → β) :
    ∀ (l : List α) (n : ℕ),
      (List.enumFrom n l).map (fun p => f p.1) = (List.range' n l.length).map f := by
  intro l
  induction l with
  | nil => intro n; rfl
  | cons a l ih => intro n; simp [List.enumFrom, List.range', ih]

theorem renameCol_length (t : Table) (o n : String) :
    (renameCol t o n).rows.length = t.rows.length := by
  unfold renameCol
  split <;> simp

theorem renameAll_length (m : List (String × String)) :
    ∀ (t : Table), (renameAll t m).rows.length = t.rows.length := by
  induction m with
  | nil => intro t; rfl
  | cons p m ih =>
    intro t
    show (renameAll (renameCol t p.1 p.2) m).rows.length = t.rows.length
    rw [ih, renameCol_length]

theorem fillnaColumn_ok {t : Table} {c : String} {t2 : Table}
    (h : fillnaColumn t c = .ok t2) :
    c ∈ t.cols ∧ t2.cols = t.cols ∧
      List.Forall₂ (fun r r2 => r2 = rowSet r c (valFillna (rowGet r c))) t.rows t2.rows := by
  unfold fillnaColumn at h
  split at h
  · cases h
    exact ⟨by assumption, rfl, forall₂_map_self _ _⟩
  · cases h

theorem fillnaColumn_absent {t : Table} {c : String} (h : c ∉ t.cols) :
    fillnaColumn t c = .error "AttributeError: int object has no attribute fillna" := by
  simp [fillnaColumn, h]

theorem addRiskScores_ok {t : Table} {us : ℕ → ℚ} {t2 : Table}
    (h : addRiskScores t us = .ok t2) :
    t2.cols = t.cols ++ ["risk_score"] ∧
      List.Forall₂ (fun r r2 => ∃ s, r2 = rowSet r "risk_score" (Val.num s)) t.rows t2.rows := by
  unfold addRiskScores at h
  cases hc : collectE (t.rows.enum.map (fun p =>
      match calculate_risk_score (rowGet p.2 "days_delinquent") (us p.1) with
      | .ok s => .ok (rowSet p.2 "risk_score" (Val.num s))
      | .error m => .error m)) with
  | error m => rw [hc] at h; cases h
  | ok rs =>
    rw [hc] at h
    cases h
    have h2 := collectE_ok_forall₂ hc
    rw [List.forall₂_map_left_iff] at h2
    have h3 : List.Forall₂
        (fun (r : Row) (r2 : Row) => ∃ s, r2 = rowSet r "risk_score" (Val.num s))
        t.rows rs := by
      apply forall₂_enum_snd (n := 0)
      refine List.Forall₂.imp ?_ h2
      intro p r2 hp
      cases hcs : calculate_risk_score (rowGet p.2 "days_delinquent") (us p.1) with
      | ok s => rw [hcs] at hp; exact ⟨s, by cases hp; rfl⟩
      | error m => rw [hcs] at hp; cases hp
    exact ⟨rfl, h3⟩

theorem addRiskTiers_ok {t : Table} {t2 : Table}
    (h : addRiskTiers t = .ok t2) :
    t2.cols = t.cols ++ ["risk_tier"] ∧
      List.Forall₂ (fun r r2 => ∃ s, r2 = rowSet r "risk_tier" (Val.str s)) t.rows t2.rows := by
  unfold addRiskTiers at h
  cases hc : collectE (t.rows.map (fun r =>
      match tierOfVal (rowGet r "risk_score") with
      | .ok tier => .ok (rowSet r "risk_tier" (Val.str tier))
      | .error m => .error m)) with
  | error m => rw [hc] at h; cases h
  | ok rs =>
    rw [hc] at h
    cases h
    have h2 := collectE_ok_forall₂ hc
    rw [List.forall₂_map_left_iff] at h2
    refine ⟨rfl, List.Forall₂.imp ?_ h2⟩
    intro r r2 hp
    cases hcs : tierOfVal (rowGet r "risk_score") with
    | ok s => rw [hcs] at hp; exact ⟨s, by cases hp; rfl⟩
    | error m => rw [hcs] at hp; cases hp

theorem processFrom_ok {t2 : Table} {us : ℕ → ℚ} {out : Table}
    (h : processFrom t2 us = .ok out) :
    ∃ t3 t4 t5, fillnaColumn t2 "days_delinquent" = .ok t3 ∧
      fillnaColumn t3 "outstanding_balance" = .ok t4 ∧
      addRiskScores t4 us = .ok t5 ∧ addRiskTiers t5 = .ok out := by
  unfold processFrom at h
  split at h
  · cases h
  · rename_i t3 h3
    split at h
    · cases h
    · rename_i t4 h4
      split at h
      · cases h
      · rename_i t5 h5
        exact ⟨t3, t4, t5, h3, h4, h5, h⟩

/-- Whether a cell is a string. -/
def isStr : Val → Bool
  | .str _ => true
  | _ => false

theorem process_eq_steps {t2 : Table} {us : ℕ → ℚ} {t3 t4 t5 : Table}
    (h3 : fillnaColumn t2 "days_delinquent" = .ok t3)
    (h4 : fillnaColumn t3 "outstanding_balance" = .ok t4)
    (h5 : addRiskScores t4 us = .ok t5) :
    processFrom t2 us = addRiskTiers t5 := by
  unfold processFrom
  simp only [h3, h4, h5]

theorem process_eq_err1 {t2 : Table} {us : ℕ → ℚ} {m : String}
    (h3 : fillnaColumn t2 "days_delinquent" = .error m) :
    processFrom t2 us = .error m := by
  unfold processFrom
  simp only [h3]

theorem process_eq_err2 {t2 : Table} {us : ℕ → ℚ} {t3 : Table} {m : String}
    (h3 : fillnaColumn t2 "days_delinquent" = .ok t3)
    (h4 : fillnaColumn t3 "outstanding_balance" = .error m) :
    processFrom t2 us = .error m := by
  unfold processFrom
  simp only [h3, h4]

theorem process_eq_err3 {t2 : Table} {us : ℕ → ℚ} {t3 t4 : Table} {m : String}
    (h3 : fillnaColumn t2 "days_delinquent" = .ok t3)
    (h4 : fillnaColumn t3 "outstanding_balance" = .ok t4)
    (h5 : addRiskScores t4 us = .error m) :
    processFrom t2 us = .error m := by
  unfold processFrom
  simp only [h3, h4, h5]

theorem mem_of_mem_enumFrom {α : Type} {p : ℕ × α} :
    ∀ {l : List α} {n : ℕ}, p ∈ List.enumFrom n l → p.2 ∈ l := by
  intro l
  induction l with
  | nil => intro n h; cases h
  | cons a l ih =>
    intro n h
    rcases List.mem_cons.mp h with h1 | h2
    · rw [h1]; exact List.mem_cons_self _ _
    · exact List.mem_cons_of_mem _ (ih h2)

theorem exists_enum_of_mem {α : Type} {a : α} :
    ∀ {l : List α} {n : ℕ}, a ∈ l → ∃ i, (i, a) ∈ List.enumFrom n l := by
  intro l
  induction l with
  | nil => intro n h; cases h
  | cons b l ih =>
    intro n h
    rcases List.mem_cons.mp h with h1 | h2
    · exact ⟨n, by rw [h1]; exact List.mem_cons_self _ _⟩
    · rcases ih (n := n + 1) h2 with ⟨i, hi⟩
      exact ⟨i, List.mem_cons_of_mem _ hi⟩

theorem fillnaColumn_present {t : Table} {c : String} (h : c ∈ t.cols) :
    fillnaColumn t c =
      .ok ⟨t.cols, t.rows.map (fun r => rowSet r c (valFillna (rowGet r c)))⟩ := by
  simp [fillnaColumn, h]

theorem calculate_risk_score_ok_of_not_str {v : Val} (h : isStr v = false) (u : ℚ) :
    ∃ q, calculate_risk_score v u = .ok q := by
  cases v with
  | num d => exact ⟨_, rfl⟩
  | str s => simp [isStr] at h
  | na => exact ⟨_, rfl⟩

theorem isStr_valFillna {v : Val} (h : isStr v = false) : isStr (valFillna v) = false := by
  cases v <;> simp_all [isStr, valFillna]

theorem addRiskScores_full {t : Table} (us : ℕ → ℚ)
    (h : ∀ r ∈ t.rows, isStr (rowGet r "days_delinquent") = false) :
    ∃ t5, addRiskScores t us = .ok t5 := by
  unfold addRiskScores
  have hall : ∀ e ∈ t.rows.enum.map (fun p =>
      match calculate_risk_score (rowGet p.2 "days_delinquent") (us p.1) with
      | .ok s => Except.ok (rowSet p.2 "risk_score" (Val.num s))
      | .error m => Except.error m), ∃ a, e = .ok a := by
    intro e he
    rcases List.mem_map.mp he with ⟨p, hp, hpe⟩
    have hmem : p.2 ∈ t.rows := mem_of_mem_enumFrom hp
    rcases calculate_risk_score_ok_of_not_str (h p.2 hmem) (us p.1) with ⟨q, hq⟩
    exact ⟨_, by rw [← hpe, hq]⟩
  rcases collectE_ok_of_all_ok hall with ⟨l, hl⟩
  exact ⟨_, by rw [hl]⟩

theorem addRiskScores_stuck {t : Table} (us : ℕ → ℚ)
    (h : ∃ r ∈ t.rows, isStr (rowGet r "days_delinquent") = true) :
    ∃ m, addRiskScores t us = .error m := by
  rcases h with ⟨r, hr, hstr⟩
  rcases exists_enum_of_mem (n := 0) hr with ⟨i, hi⟩
  have hv : ∃ s, rowGet r "days_delinquent" = Val.str s := by
    cases hval : rowGet r "days_delinquent" <;> simp_all [isStr]
  rcases hv with ⟨s, hs⟩
  have hmem : Except.error
      "TypeError: unsupported comparison between instances of str and int" ∈
      t.rows.enum.map (fun p =>
        match calculate_risk_score (rowGet p.2 "days_delinquent") (us p.1) with
        | .ok s => Except.ok (rowSet p.2 "risk_score" (Val.num s))
        | .error m => Except.error m) := by
    refine List.mem_map.mpr ⟨(i, r), hi, ?_⟩
    simp [hs, calculate_risk_score]
  rcases collectE_error_of_mem hmem with ⟨m2, hm2⟩
  exact ⟨m2, by unfold addRiskScores; rw [hm2]⟩

theorem addRiskTiers_full {t : Table}
    (h : ∀ r ∈ t.rows, ∃ q, rowGet r "risk_score" = Val.num q) :
    ∃ t6, addRiskTiers t = .ok t6 := by
  unfold addRiskTiers
  have hall : ∀ e ∈ t.rows.map (fun r =>
      match tierOfVal (rowGet r "risk_score") with
      | .ok tier => Except.ok (rowSet r "risk_tier" (Val.str tier))
      | .error m => Except.error m), ∃ a, e = .ok a := by
    intro e he
    rcases List.mem_map.mp he with ⟨r, hr, hre⟩
    rcases h r hr with ⟨q, hq⟩
    exact ⟨_, by rw [← hre, hq]; rfl⟩
  rcases collectE_ok_of_all_ok hall with ⟨l, hl⟩
  exact ⟨_, by rw [hl]⟩

theorem pipelinePolicy (t2 : Table) (us : ℕ → ℚ) :
    ("days_delinquent" ∉ t2.cols →
      processFrom t2 us = .error "AttributeError: int object has no attribute fillna") ∧
    ("outstanding_balance" ∉ t2.cols →
      ∃ m, processFrom t2 us = .error m) ∧
    ((∃ r ∈ t2.rows, isStr (rowGet r "days_delinquent") = true) →
      ∃ m, processFrom t2 us = .error m) ∧
    ("days_delinquent" ∈ t2.cols →
      "outstanding_balance" ∈ t2.cols →
      (∀ r ∈ t2.rows, isStr (rowGet r "days_delinquent") = false) →
      ∃ out, processFrom t2 us = .ok out ∧
        List.Forall₂ (fun r r2 =>
            rowGet r2 "days_delinquent" = valFillna (rowGet r "days_delinquent") ∧
            rowGet r2 "outstanding_balance" = valFillna (rowGet r "outstanding_balance"))
          t2.rows out.rows) := by
  refine ⟨?_, ?_, ?_, ?_⟩
  · intro hd
    exact process_eq_err1 (fillnaColumn_absent hd)
  · intro hb
    by_cases hd : "days_delinquent" ∈ t2.cols
    · exact ⟨_, process_eq_err2 (fillnaColumn_present hd) (fillnaColumn_absent hb)⟩
    · exact ⟨_, process_eq_err1 (fillnaColumn_absent hd)⟩
  · intro hstr
    by_cases hd : "days_delinquent" ∈ t2.cols
    · by_cases hb : "outstanding_balance" ∈ t2.cols
      · have h3 := fillnaColumn_present (c := "days_delinquent") hd
        have h4 := fillnaColumn_present
          (t := Table.mk t2.cols (t2.rows.map
            (fun r => rowSet r "days_delinquent" (valFillna (rowGet r "days_delinquent")))))
          (c := "outstanding_balance") hb
        have hstr4 : ∃ r ∈ ((t2.rows.map
            (fun r => rowSet r "days_delinquent" (valFillna (rowGet r "days_delinquent")))).map
              (fun r => rowSet r "outstanding_balance"
                (valFillna (rowGet r "outstanding_balance")))),
            isStr (rowGet r "days_delinquent") = true := by
          rcases hstr with ⟨r, hr, hs⟩
          refine ⟨rowSet (rowSet r "days_delinquent" (valFillna (rowGet r "days_delinquent")))
              "outstanding_balance" (valFillna (rowGet (rowSet r "days_delinquent"
                (valFillna (rowGet r "days_delinquent"))) "outstanding_balance")), ?_, ?_⟩
          · exact List.mem_map_of_mem _ (List.mem_map_of_mem _ hr)
          · rw [rowGet_set_ne _ _ _ _ (by decide), rowGet_set_self]
            rcases hval : rowGet r "days_delinquent" with q | s2 | _ <;>
              rw [hval] at hs <;> simp_all [isStr, valFillna]
        rcases addRiskScores_stuck (t := Table.mk t2.cols ((t2.rows.map
            (fun r => rowSet r "days_delinquent" (valFillna (rowGet r "days_delinquent")))).map
              (fun r => rowSet r "outstanding_balance"
                (valFillna (rowGet r "outstanding_balance"))))) us hstr4 with ⟨m, hm⟩
        exact ⟨m, process_eq_err3 h3 h4 hm⟩
      · exact ⟨_, process_eq_err2 (fillnaColumn_present hd) (fillnaColumn_absent hb)⟩
    · exact ⟨_, process_eq_err1 (fillnaColumn_absent hd)⟩
  · intro hd hb hnum
    have h3 := fillnaColumn_present (c := "days_delinquent") hd
    have h4 := fillnaColumn_present
      (t := Table.mk t2.cols (t2.rows.map
        (fun r => rowSet r "days_delinquent" (valFillna (rowGet r "days_delinquent")))))
      (c := "outstanding_balance") hb
    have hget4 : ∀ r : Row,
        rowGet (rowSet (rowSet r "days_delinquent" (valFillna (rowGet r "days_delinquent")))
          "outstanding_balance" (valFillna (rowGet (rowSet r "days_delinquent"
            (valFillna (rowGet r "days_delinquent"))) "outstanding_balance")))
          "days_delinquent" = valFillna (rowGet r "days_delinquent") := by
      intro r
      rw [rowGet_set_ne _ _ _ _ (by decide), rowGet_set_self]
    have hgetbal : ∀ r : Row,
        rowGet (rowSet (rowSet r "days_delinquent" (valFillna (rowGet r "days_delinquent")))
          "outstanding_balance" (valFillna (rowGet (rowSet r "days_delinquent"
            (valFillna (rowGet r "days_delinquent"))) "outstanding_balance")))
          "outstanding_balance" =
          valFillna (rowGet r "outstanding_balance") := by
      intro r
      rw [rowGet_set_self, rowGet_set_ne _ _ _ _ (by decide)]
    have ht4rows : ((t2.rows.map
        (fun r => rowSet r "days_delinquent" (valFillna (rowGet r "days_delinquent")))).map
          (fun r => rowSet r "outstanding_balance"
            (valFillna (rowGet r "outstanding_balance")))) =
        t2.rows.map (fun r =>
          rowSet (rowSet r "days_delinquent" (valFillna (rowGet r "days_delinquent")))
            "outstanding_balance" (valFillna (rowGet (rowSet r "days_delinquent"
              (valFillna (rowGet r "days_delinquent"))) "outstanding_balance"))) := by
      simp [List.map_map, Function.comp]
    have hdays4 : ∀ r ∈ ((t2.rows.map
        (fun r => rowSet r "days_delinquent" (valFillna (rowGet r "days_delinquent")))).map
          (fun r => rowSet r "outstanding_balance"
            (valFillna (rowGet r "outstanding_balance")))),
        isStr (rowGet r "days_delinquent") = false := by
      intro r hr
      rw [ht4rows] at hr
      rcases List.mem_map.mp hr with ⟨r0, hr0, hre⟩
      rw [← hre, hget4]
      exact isStr_valFillna (hnum r0 hr0)
    rcases addRiskScores_full (t := Table.mk t2.cols ((t2.rows.map
        (fun r => rowSet r "days_delinquent" (valFillna (rowGet r "days_delinquent")))).map
          (fun r => rowSet r "outstanding_balance"
            (valFillna (rowGet r "outstanding_balance"))))) us hdays4 with ⟨t5, h5⟩
    rcases addRiskScores_ok h5 with ⟨hc5, hf5⟩
    have hscores : ∀ r ∈ t5.rows, ∃ q, rowGet r "risk_score" = Val.num q := by
      intro r hr
      rcases forall₂_mem_right hf5 r hr with ⟨r4, _, ⟨s, hs⟩⟩
      exact ⟨s, by rw [hs, rowGet_set_self]⟩
    rcases addRiskTiers_full hscores with ⟨t6, h6⟩
    refine ⟨t6, ?_, ?_⟩
    · rw [process_eq_steps h3 h4 h5, h6]
    · rcases addRiskTiers_ok h6 with ⟨_, hf6⟩
      have hstep1 : List.Forall₂ (fun r r4 =>
          rowGet r4 "days_delinquent" = valFillna (rowGet r "days_delinquent") ∧
          rowGet r4 "outstanding_balance" = valFillna (rowGet r "outstanding_balance"))
          t2.rows ((t2.rows.map
            (fun r => rowSet r "days_delinquent" (valFillna (rowGet r "days_delinquent")))).map
              (fun r => rowSet r "outstanding_balance"
                (valFillna (rowGet r "outstanding_balance")))) := by
        rw [ht4rows]
        refine List.Forall₂.imp ?_ (forall₂_map_self _ t2.rows)
        intro r r4 hre
        rw [hre]
        exact ⟨hget4 r, hgetbal r⟩
      have hstep46 : List.Forall₂ (fun r4 r6 =>
          rowGet r6 "days_delinquent" = rowGet r4 "days_delinquent" ∧
          rowGet r6 "outstanding_balance" = rowGet r4 "outstanding_balance")
          ((t2.rows.map
            (fun r => rowSet r "days_delinquent" (valFillna (rowGet r "days_delinquent")))).map
              (fun r => rowSet r "outstanding_balance"
                (valFillna (rowGet r "outstanding_balance")))) t6.rows := by
        refine forall₂_trans ?_ hf5 hf6
        intro r4 r5 r6 hr5 hr6
        rcases hr5 with ⟨s, hs⟩
        rcases hr6 with ⟨tr, htr⟩
        constructor
        · rw [htr, rowGet_set_ne _ _ _ _ (by decide), hs,
            rowGet_set_ne _ _ _ _ (by decide)]
        · rw [htr, rowGet_set_ne _ _ _ _ (by decide), hs,
            rowGet_set_ne _ _ _ _ (by decide)]
      refine forall₂_trans ?_ hstep1 hstep46
      intro r r4 r6 hr hr6
      exact ⟨hr6.1.trans hr.1, hr6.2.trans hr.2⟩

/-- C3 (amended): `fillna(0)` only replaces NaN cells.  When both numeric
columns are present and no `days_delinquent` cell is a string, ingestion
succeeds and NaN cells of `days_delinquent`/`outstanding_balance` become 0
while every other cell value is kept; but a missing `days_delinquent` or
`outstanding_balance` column makes `df.get(col, 0).fillna(0)` raise
`AttributeError` (the scalar default has no `fillna`), and a string
`days_delinquent` cell survives `fillna` and makes the risk-score comparison
raise `TypeError` — in both cases `process_nslds_file` returns an error
instead of a table. -/
theorem C3_fillna_policy (t : Table) (us : ℕ → ℚ) :
    ("days_delinquent" ∉ (ingestPrepared t).cols →
      process_nslds_file t us = .error "AttributeError: int object has no attribute fillna") ∧
    ("outstanding_balance" ∉ (ingestPrepared t).cols →
      ∃ m, process_nslds_file t us = .error m) ∧
    ((∃ r ∈ (ingestPrepared t).rows, isStr (rowGet r "days_delinquent") = true) →
      ∃ m, process_nslds_file t us = .error m) ∧
    ("days_delinquent" ∈ (ingestPrepared t).cols →
      "outstanding_balance" ∈ (ingestPrepared t).cols →
      (∀ r ∈ (ingestPrepared t).rows, isStr (rowGet r "days_delinquent") = false) →
      ∃ out, process_nslds_file t us = .ok out ∧
        List.Forall₂ (fun r r2 =>
            rowGet r2 "days_delinquent" = valFillna (rowGet r "days_delinquent") ∧
            rowGet r2 "outstanding_balance" = valFillna (rowGet r "outstanding_balance"))
          (ingestPrepared t).rows out.rows) := by
  have h := pipelinePolicy (ingestPrepared t) us
  exact h

/-- A fixed all-zero random stream, used to evaluate the pipeline at concrete
inputs. -/
def usZero : ℕ → ℚ := fun _ => 0

/-- An NSLDS upload whose `Days Delinquent` cell holds the non-numeric string
"abc" (what `pd.read_csv` produces for a non-numeric cell). -/
def Tc3 : Table := Table.mk ["Days Delinquent", "OPB"]
  [[("Days Delinquent", Val.str "abc"), ("OPB", Val.num 100)]]

/-- C3 counterexample: ingesting a file whose `Days Delinquent` cell is the
non-numeric string "abc" does not yield `days_delinquent = 0` — `fillna(0)`
leaves the string alone and the risk-score comparison raises `TypeError`, so
`process_nslds_file` returns an error, not a table. -/
theorem C3_claim_counterexample :
    process_nslds_file Tc3 usZero =
      .error "TypeError: unsupported comparison between instances of str and int" := by
  with_unfolding_all decide

/-- A well-formed NSLDS upload with NaN cells in both numeric columns. -/
def Tc3w : Table := Table.mk ["Days Delinquent", "OPB"]
  [[("Days Delinquent", Val.na), ("OPB", Val.na)]]

theorem C3_fillna_policy_witness :
    ∃ out, process_nslds_file Tc3w usZero = .ok out ∧
      List.Forall₂ (fun r r2 =>
          rowGet r2 "days_delinquent" = valFillna (rowGet r "days_delinquent") ∧
          rowGet r2 "outstanding_balance" = valFillna (rowGet r "outstanding_balance"))
        (ingestPrepared Tc3w).rows out.rows :=
  (C3_fillna_policy Tc3w usZero).2.2.2 (by with_unfolding_all decide)
    (by with_unfolding_all decide) (by with_unfolding_all decide)

theorem processFrom_preserves_col {t2 : Table} {us : ℕ → ℚ} {out : Table} (c : String)
    (hc1 : c ≠ "days_delinquent") (hc2 : c ≠ "outstanding_balance")
    (hc3 : c ≠ "risk_score") (hc4 : c ≠ "risk_tier")
    (h : processFrom t2 us = .ok out) :
    out.rows.map (fun r => rowGet r c) = t2.rows.map (fun r => rowGet r c) := by
  rcases processFrom_ok h with ⟨t3, t4, t5, h3, h4, h5, h6⟩
  rcases fillnaColumn_ok h3 with ⟨_, _, hf3⟩
  rcases fillnaColumn_ok h4 with ⟨_, _, hf4⟩
  rcases addRiskScores_ok h5 with ⟨_, hf5⟩
  rcases addRiskTiers_ok h6 with ⟨_, hf6⟩
  have ha : List.Forall₂ (fun r r2 => rowGet r2 c = rowGet r c) t2.rows t3.rows := by
    refine List.Forall₂.imp ?_ hf3
    intro r r2 hre
    rw [hre, rowGet_set_ne _ _ _ _ hc1]
  have hb : List.Forall₂ (fun r r2 => rowGet r2 c = rowGet r c) t3.rows t4.rows := by
    refine List.Forall₂.imp ?_ hf4
    intro r r2 hre
    rw [hre, rowGet_set_ne _ _ _ _ hc2]
  have hcc : List.Forall₂ (fun r r2 => rowGet r2 c = rowGet r c) t4.rows t5.rows := by
    refine List.Forall₂.imp ?_ hf5
    intro r r2 hre
    rcases hre with ⟨s, hs⟩
    rw [hs, rowGet_set_ne _ _ _ _ hc3]
  have hdd : List.Forall₂ (fun r r2 => rowGet r2 c = rowGet r c) t5.rows out.rows := by
    refine List.Forall₂.imp ?_ hf6
    intro r r2 hre
    rcases hre with ⟨s, hs⟩
    rw [hs, rowGet_set_ne _ _ _ _ hc4]
  have h24 : List.Forall₂ (fun r r2 => rowGet r2 c = rowGet r c) t2.rows t4.rows :=
    forall₂_trans (fun a b d h1 h2 => h2.trans h1) ha hb
  have h25 : List.Forall₂ (fun r r2 => rowGet r2 c = rowGet r c) t2.rows t5.rows :=
    forall₂_trans (fun a b d h1 h2 => h2.trans h1) h24 hcc
  have htrans : List.Forall₂ (fun r r2 => rowGet r2 c = rowGet r c) t2.rows out.rows :=
    forall₂_trans (fun a b d h1 h2 => h2.trans h1) h25 hdd
  exact forall₂_map_eq htrans

theorem addStudentIds_proj (t1 : Table) (h : "student_id" ∉ t1.cols) :
    (addStudentIds t1).rows.map (fun r => rowGet r "student_id") =
      (List.range t1.rows.length).map (fun i => Val.str (stuId i)) := by
  unfold addStudentIds
  rw [if_neg h]
  show (t1.rows.enum.map _).map _ = _
  rw [List.map_map, List.range_eq_range']
  have h2 : ((fun r => rowGet r "student_id") ∘
      (fun p : ℕ × Row => rowSet p.2 "student_id" (Val.str (stuId p.1)))) =
      fun p : ℕ × Row => Val.str (stuId p.1) := by
    funext p
    simp [Function.comp, rowGet_set_self]
  rw [h2]
  exact enumFrom_map_fst_fun (fun i => Val.str (stuId i)) t1.rows 0

/-- C8: when the renamed upload has no `student_id` column, ingestion
synthesizes one identifier per row, in row order: row `i` receives the string
`STU` followed by `i + 1000` zero-padded to six digits, so the first rows get
`STU001000`, `STU001001`, and so on. -/
theorem C8_synthesized_ids (t : Table) (us : ℕ → ℚ)
    (h : "student_id" ∉ (renameAll t nslds_column_mapping).cols) :
    (∀ out, process_nslds_file t us = .ok out →
      out.rows.map (fun r => rowGet r "student_id") =
        (List.range t.rows.length).map (fun i => Val.str (stuId i))) ∧
    stuId 0 = "STU001000" ∧ stuId 1 = "STU001001" := by
  refine ⟨?_, by decide, by decide⟩
  intro out hout
  have hpp : processFrom (ingestPrepared t) us = .ok out := hout
  rw [processFrom_preserves_col "student_id" (by decide) (by decide) (by decide)
    (by decide) hpp]
  have hlen : (renameAll t nslds_column_mapping).rows.length = t.rows.length :=
    renameAll_length nslds_column_mapping t
  rw [show ingestPrepared t = addStudentIds (renameAll t nslds_column_mapping) from rfl,
    addStudentIds_proj _ h, hlen]

/-- An NSLDS upload with two rows and no student identifier column. -/
def Tc8 : Table := Table.mk ["Days Delinquent", "OPB"]
  [[("Days Delinquent", Val.num 45), ("OPB", Val.num 100)],
   [("Days Delinquent", Val.num 200), ("OPB", Val.num 50)]]

theorem C8_synthesized_ids_witness :
    stuId 0 = "STU001000" ∧ stuId 1 = "STU001001" :=
  ⟨(C8_synthesized_ids Tc8 usZero (by decide)).2.1,
   (C8_synthesized_ids Tc8 usZero (by decide)).2.2⟩

/-- C9: `analyze_by_major` degrades gracefully: a table without a `major`
column yields `None` (no analysis) rather than raising, and so does an absent
input table. -/
theorem C9_missing_major (t : Table) (sal : ℕ → ℚ) (h : "major" ∉ t.cols) :
    analyze_by_major (some t) sal = .ok none ∧
      analyze_by_major none sal = .ok none := by
  constructor
  · simp [analyze_by_major, h]
  · rfl

theorem C9_missing_major_witness :
    analyze_by_major (some (Table.mk ["risk_score"] [])) usZero = .ok none ∧
      analyze_by_major none usZero = .ok none :=
  C9_missing_major (Table.mk ["risk_score"] []) usZero (by decide)

/-- C7 (amended): for every row and every draw of the random base score, the
predictive score is `min(1, base + gpa_penalty + enrollment_penalty +
standing_penalty)` with the claimed bucket penalties (`gpaBucket`,
`enrollmentFactorOf`, `standingFactorOf`) — except that a GPA cell equal to 0
is Python-falsy, is silently replaced by the default GPA 3.0, and incurs no
GPA penalty at all; and every score the function returns is at most 1. -/
theorem C7_predictive_formula (r : Row) (u : ℚ) :
    (∀ b g : ℚ,
      calculate_risk_score ((List.lookup "days_delinquent" r).getD (Val.num 0)) u = .ok b →
      List.lookup "gpa" r = some (Val.num g) → g ≠ 0 →
      calculate_predictive_score r u =
        .ok (min 1 (b + gpaBucket g + enrollmentFactorOf r + standingFactorOf r))) ∧
    (∀ b : ℚ,
      calculate_risk_score ((List.lookup "days_delinquent" r).getD (Val.num 0)) u = .ok b →
      List.lookup "gpa" r = some (Val.num 0) →
      calculate_predictive_score r u =
        .ok (min 1 (b + enrollmentFactorOf r + standingFactorOf r))) ∧
    (∀ g : ℚ, (g < 2.0 → gpaBucket g = 0.3) ∧ (2.0 ≤ g → g < 2.5 → gpaBucket g = 0.2) ∧
      (2.5 ≤ g → g < 3.0 → gpaBucket g = 0.1) ∧ (3.0 ≤ g → gpaBucket g = 0)) ∧
    (∀ s : ℚ, calculate_predictive_score r u = .ok s → s ≤ 1) := by
  refine ⟨?_, ?_, ?_, ?_⟩
  · intro b g hb hg hg0
    unfold calculate_predictive_score
    rw [hb]
    have hfac : gpaFactorOf r = .ok (gpaBucket g) := by
      unfold gpaFactorOf
      rw [hg]
      simp [valTruthy, hg0]
    rw [hfac]
    norm_num
  · intro b hb hg
    unfold calculate_predictive_score
    rw [hb]
    have hfac : gpaFactorOf r = .ok (gpaBucket 3.0) := by
      unfold gpaFactorOf
      rw [hg]
      simp [valTruthy]
    rw [hfac]
    have h3 : gpaBucket 3.0 = 0 := by norm_num [gpaBucket]
    rw [h3]
    norm_num
  · intro g
    refine ⟨?_, ?_, ?_, ?_⟩
    · intro h; simp [gpaBucket, h]
    · intro h1 h2
      have hn : ¬ g < 2.0 := by linarith
      simp [gpaBucket, hn, h2]
    · intro h1 h2
      have hn1 : ¬ g < 2.0 := by linarith
      have hn2 : ¬ g < 2.5 := by linarith
      simp [gpaBucket, hn1, hn2, h2]
    · intro h
      have hn1 : ¬ g < 2.0 := by linarith
      have hn2 : ¬ g < 2.5 := by linarith
      have hn3 : ¬ g < 3.0 := by linarith
      simp [gpaBucket, hn1, hn2, hn3]
  · intro s hs
    unfold calculate_predictive_score at hs
    cases h1 : calculate_risk_score
        ((List.lookup "days_delinquent" r).getD (Val.num 0)) u with
    | error m => rw [h1] at hs; cases hs
    | ok b =>
      rw [h1] at hs
      cases h2 : gpaFactorOf r with
      | error m => rw [h2] at hs; cases hs
      | ok gf =>
        rw [h2] at hs
        cases hs
        calc min 1.0 (b + gf + enrollmentFactorOf r + standingFactorOf r) ≤ 1.0 :=
              min_le_left _ _
          _ ≤ 1 := by norm_num

/-- A merged row with GPA 0: `0.0` is falsy in Python, so line 88 replaces it
by the default GPA 3.0. -/
def Rc7 : Row := [("days_delinquent", Val.num 0), ("gpa", Val.num 0)]

/-- C7 counterexample: on a row with GPA 0 and base draw 0, the claimed
formula gives `min(1, 0 + 0.3 + 0 + 0) = 0.3` (GPA 0 is below 2.0, so the
claimed penalty is 0.3), but `calculate_predictive_score` returns 0: the
falsy GPA is replaced by 3.0 and no penalty is applied. -/
theorem C7_claim_counterexample :
    calculate_risk_score ((List.lookup "days_delinquent" Rc7).getD (Val.num 0)) 0 = .ok 0 ∧
    (0 : ℚ) < 2 ∧ gpaBucket 0 = 0.3 ∧
    enrollmentFactorOf Rc7 = 0 ∧ standingFactorOf Rc7 = 0 ∧
    calculate_predictive_score Rc7 0 = .ok 0 ∧
    (Except.ok (0 : ℚ) ≠
      (.ok (min 1 ((0 : ℚ) + 0.3 + 0 + 0)) : Except String ℚ)) := by
  refine ⟨?_, ?_, ?_, ?_, ?_, ?_, ?_⟩ <;> with_unfolding_all decide

/-- A merged row exercising every penalty: 200 days delinquent, GPA 2.2,
part-time, on academic probation. -/
def Rc7w : Row := [("days_delinquent", Val.num 200), ("gpa", Val.num 2.2),
  ("enrollment_status", Val.str "Part-time"),
  ("academic_standing", Val.str "Academic Probation")]

theorem C7_predictive_formula_witness :
    calculate_predictive_score Rc7w 0 =
      .ok (min 1 (0.8 + gpaBucket 2.2 + enrollmentFactorOf Rc7w + standingFactorOf Rc7w)) :=
  (C7_predictive_formula Rc7w 0).1 0.8 2.2 (by with_unfolding_all decide)
    (by with_unfolding_all decide) (by with_unfolding_all decide)

theorem addPredictive_ok {t : Table} {us : ℕ → ℚ} {t2 : Table}
    (h : addPredictive t us = .ok t2) :
    t2.cols = t.cols ++ ["predictive_score", "predictive_tier"] ∧
      List.Forall₂ (fun r r2 => ∃ s, r2 = rowSet (rowSet r "predictive_score" (Val.num s))
        "predictive_tier" (Val.str (get_risk_tier s))) t.rows t2.rows := by
  unfold addPredictive at h
  cases hc : collectE (t.rows.enum.map (fun p =>
      match calculate_predictive_score p.2 (us p.1) with
      | .ok s => .ok (rowSet (rowSet p.2 "predictive_score" (Val.num s))
          "predictive_tier" (Val.str (get_risk_tier s)))
      | .error m => .error m)) with
  | error m => rw [hc] at h; cases h
  | ok rs =>
    rw [hc] at h
    cases h
    have h2 := collectE_ok_forall₂ hc
    rw [List.forall₂_map_left_iff] at h2
    refine ⟨rfl, ?_⟩
    apply forall₂_enum_snd (n := 0)
    refine List.Forall₂.imp ?_ h2
    intro p r2 hp
    cases hcs : calculate_predictive_score p.2 (us p.1) with
    | ok s => rw [hcs] at hp; exact ⟨s, by cases hp; rfl⟩
    | error m => rw [hcs] at hp; cases hp

/-- C10: the merge attaches the `predictive_score` and `predictive_tier`
columns exactly when both `gpa` and `academic_standing` are columns of the
merged table; when either is missing the merge still succeeds, carrying no
predictive columns at all. -/
theorem C10_predictive_columns (a b : Table) (us : ℕ → ℚ)
    (h1 : "ssn" ∈ a.cols) (h2 : "ssn" ∈ b.cols)
    (hna : "predictive_score" ∉ (mergeOn a b "ssn").cols)
    (hnb : "predictive_tier" ∉ (mergeOn a b "ssn").cols) :
    (¬ ("gpa" ∈ (mergeOn a b "ssn").cols ∧
        "academic_standing" ∈ (mergeOn a b "ssn").cols) →
      merge_data a b us = .ok (mergeOn a b "ssn") ∧
      "predictive_score" ∉ (mergeOn a b "ssn").cols ∧
      "predictive_tier" ∉ (mergeOn a b "ssn").cols) ∧
    (∀ t, merge_data a b us = .ok t →
      ((("predictive_score" ∈ t.cols) ∧ ("predictive_tier" ∈ t.cols)) ↔
        ("gpa" ∈ t.cols ∧ "academic_standing" ∈ t.cols))) := by
  have hmd : merge_data a b us = mergePost (mergeOn a b "ssn") us := by
    unfold merge_data
    rw [if_pos ⟨h1, h2⟩]
  constructor
  · intro hno
    rw [hmd]
    unfold mergePost
    rw [if_neg hno]
    exact ⟨rfl, hna, hnb⟩
  · intro t ht
    rw [hmd] at ht
    unfold mergePost at ht
    by_cases hgs : "gpa" ∈ (mergeOn a b "ssn").cols ∧
        "academic_standing" ∈ (mergeOn a b "ssn").cols
    · rw [if_pos hgs] at ht
      rcases addPredictive_ok ht with ⟨hcols, _⟩
      constructor
      · intro _
        rw [hcols]
        constructor
        · refine List.mem_append_left _ hgs.1
        · exact List.mem_append_left _ hgs.2
      · intro _
        rw [hcols]
        constructor
        · exact List.mem_append_right _ (by decide)
        · exact List.mem_append_right _ (by decide)
    · rw [if_neg hgs] at ht
      cases ht
      constructor
      · intro hps
        exact absurd hps.1 hna
      · intro hg
        exact absurd hg hgs

/-- A delinquency table and a student table sharing only `ssn`, with no
academic columns. -/
def Tc10a : Table := Table.mk ["ssn", "days_delinquent"]
  [[("ssn", Val.num 1), ("days_delinquent", Val.num 10)]]

def Tc10b : Table := Table.mk ["ssn", "major"]
  [[("ssn", Val.num 1), ("major", Val.str "CS")]]

theorem C10_predictive_columns_witness :
    merge_data Tc10a Tc10b usZero = .ok (mergeOn Tc10a Tc10b "ssn") ∧
    "predictive_score" ∉ (mergeOn Tc10a Tc10b "ssn").cols ∧
    "predictive_tier" ∉ (mergeOn Tc10a Tc10b "ssn").cols :=
  (C10_predictive_columns Tc10a Tc10b usZero (by decide) (by decide)
    (by decide) (by decide)).1 (by decide)

theorem string_append_right_cancel {a b s : String} (h : a ++ s = b ++ s) : a = b := by
  cases a with
  | mk as =>
    cases b with
    | mk bs =>
      cases s with
      | mk ss =>
        have hd : as ++ ss = bs ++ ss := congrArg String.data h
        have := List.append_cancel_right hd
        rw [this]

theorem append_suffix_ne (s t : String)
    (hne : t.data.drop (t.data.length - s.data.length) ≠ s.data) :
    ∀ c : String, c ++ s ≠ t := by
  intro c h
  apply hne
  have hd : c.data ++ s.data = t.data := by
    rw [← h]; cases c; cases s; rfl
  rw [← hd]
  have hlen : (c.data ++ s.data).length - s.data.length = c.data.length := by
    simp
  rw [hlen, List.drop_left]

theorem drop_len_plus {α : Type} (l2 : List α) (n : ℕ) :
    ∀ l1 : List α, (l1 ++ l2).drop (l1.length + n) = l2.drop n := by
  intro l1
  induction l1 with
  | nil => simp
  | cons a l ih =>
    have he : (a :: l).length + n = (l.length + n) + 1 := by
      simp [Nat.succ_add]
    rw [List.cons_append, he, List.drop_succ_cons, ih]

theorem sis_append_ne_nslds_append : ∀ x y : String, x ++ "_sis" ≠ y ++ "_nslds" := by
  intro x y h
  have hd : x.data ++ "_sis".data = y.data ++ "_nslds".data := by
    rw [show x.data ++ "_sis".data = (x ++ "_sis").data by cases x; rfl, h]
    cases y; rfl
  have hlen : x.data.length + 4 = y.data.length + 6 := by
    have := congrArg List.length hd
    simpa using this
  have hx : x.data.length = y.data.length + 2 := by omega
  have hdrop := congrArg (List.drop (x.data.length)) hd
  rw [List.drop_left] at hdrop
  rw [hx, drop_len_plus] at hdrop
  exact absurd hdrop (by decide)

theorem nslds_append_ne_sis_append : ∀ x y : String, x ++ "_nslds" ≠ y ++ "_sis" :=
  fun x y h => sis_append_ne_nslds_append y x h.symm

theorem lookup_append (a : String) (l1 l2 : Row) :
    List.lookup a (l1 ++ l2) =
      (match List.lookup a l1 with
       | some v => some v
       | none => List.lookup a l2) := by
  induction l1 with
  | nil => rfl
  | cons p l ih =>
    obtain ⟨k, v⟩ := p
    cases hk : a == k with
    | true => simp [List.lookup, hk]
    | false => simp [List.lookup, hk, ih]

theorem lookup_map_keys_mem (f : String → String) (target c : String) :
    ∀ r : Row, (∀ p ∈ r, (f p.1 = target ↔ p.1 = c)) →
      List.lookup target (r.map (fun p => (f p.1, p.2))) = List.lookup c r := by
  intro r
  induction r with
  | nil => intro _; rfl
  | cons p l ih =>
    intro hf
    obtain ⟨k, v⟩ := p
    have hpf := hf (k, v) (List.mem_cons_self _ _)
    by_cases hk : f k = target
    · have hkc : k = c := hpf.mp hk
      subst hkc
      have h1 : (target == f k) = true := beq_iff_eq.mpr hk.symm
      have h2 : (k == k) = true := beq_self_eq_true k
      simp [List.lookup, h1, h2]
    · have hkc : k ≠ c := fun he => hk (hpf.mpr he)
      have h1 : (target == f k) = false := beq_eq_false_iff_ne.mpr (fun he => hk he.symm)
      have h2 : (c == k) = false := beq_eq_false_iff_ne.mpr (Ne.symm hkc)
      simp only [List.map_cons, List.lookup, h1, h2]
      exact ih (fun q hq => hf q (List.mem_cons_of_mem _ hq))

theorem lookup_eq_none_of_keys_ne (a : String) :
    ∀ l : Row, (∀ p ∈ l, p.1 ≠ a) → List.lookup a l = none := by
  intro l
  induction l with
  | nil => intro _; rfl
  | cons p l ih =>
    intro h
    have h1 : (a == p.1) = false :=
      beq_eq_false_iff_ne.mpr (Ne.symm (h p (List.mem_cons_self p l)))
    obtain ⟨k, v⟩ := p
    simp only [List.lookup, h1]
    exact ih fun q hq => h q (List.mem_cons_of_mem _ hq)

theorem lookup_filter_ne (c k : String) (hck : c ≠ k) :
    ∀ r : Row, List.lookup c (r.filter (fun p => decide (p.1 ≠ k))) = List.lookup c r := by
  intro r
  induction r with
  | nil => rfl
  | cons p l ih =>
    rw [List.filter_cons]
    by_cases hpk : p.1 ≠ k
    · rw [if_pos (decide_eq_true hpk)]
      obtain ⟨kk, v⟩ := p
      cases hc : c == kk with
      | true => simp only [List.lookup, hc]
      | false =>
        simp only [List.lookup, hc]
        exact ih
    · rw [if_neg (by simp [hpk])]
      obtain ⟨kk, v⟩ := p
      have hkk : kk = k := not_not.mp hpk
      have hcp : (c == kk) = false := beq_eq_false_iff_ne.mpr (by rw [hkk]; exact hck)
      rw [ih]
      simp only [List.lookup, hcp]

theorem mem_mergeOn_rows {a b : Table} {k : String} {r : Row} :
    r ∈ (mergeOn a b k).rows ↔
      ∃ ra ∈ a.rows, ∃ rb ∈ b.rows, rowGet rb k = rowGet ra k ∧
        r = combineRow a.cols b.cols k ra rb := by
  constructor
  · intro h
    rcases List.mem_flatMap.mp h with ⟨ra, hra, hmap⟩
    rcases List.mem_map.mp hmap with ⟨rb, hrb, hcomb⟩
    rcases List.mem_filter.mp hrb with ⟨hrbmem, hkey⟩
    exact ⟨ra, hra, rb, hrbmem, of_decide_eq_true hkey, hcomb.symm⟩
  · rintro ⟨ra, hra, rb, hrb, hkey, rfl⟩
    refine List.mem_flatMap.mpr ⟨ra, hra, ?_⟩
    refine List.mem_map.mpr ⟨rb, ?_, rfl⟩
    exact List.mem_filter.mpr ⟨hrb, decide_eq_true hkey⟩

theorem rowGet_combineRow_key {acols bcols : List String} {k : String} (ra rb : Row)
    (hknl : ∀ c : String, c ++ "_nslds" ≠ k) (hks : ∀ c : String, c ++ "_sis" ≠ k) :
    rowGet (combineRow acols bcols k ra rb) k = rowGet ra k := by
  unfold combineRow rowGet
  rw [lookup_append]
  have hfL : ∀ p : String × Val, p ∈ ra → (sufL bcols k p.1 = k ↔ p.1 = k) := by
    intro p _
    constructor
    · intro hx
      unfold sufL at hx
      split at hx
      · exact absurd hx (hknl p.1)
      · exact hx
    · intro hx
      rw [hx]
      unfold sufL
      simp
  rw [lookup_map_keys_mem _ _ _ ra hfL]
  cases hl : List.lookup k ra with
  | some v => rfl
  | none =>
    have hnone : List.lookup k ((rb.filter (fun p => decide (p.1 ≠ k))).map
        (fun p => (sufR acols k p.1, p.2))) = none := by
      apply lookup_eq_none_of_keys_ne
      intro p hp
      rcases List.mem_map.mp hp with ⟨q, hq, hqe⟩
      rcases List.mem_filter.mp hq with ⟨_, hqk⟩
      have hqk2 : q.1 ≠ k := of_decide_eq_true hqk
      rw [← hqe]
      show sufR acols k q.1 ≠ k
      unfold sufR
      split
      · exact hks q.1
      · exact hqk2
    rw [hnone]

theorem rowGet_combineRow_left {acols bcols : List String} {k c : String} (ra rb : Row)
    (hkc : c ≠ k) (hcb : c ∈ bcols)
    (hwa : ∀ p ∈ ra, p.1 ∈ acols) (hwb : ∀ p ∈ rb, p.1 ∈ bcols)
    (hnla : (c ++ "_nslds") ∉ acols) (hnlb : (c ++ "_nslds") ∉ bcols) :
    rowGet (combineRow acols bcols k ra rb) (c ++ "_nslds") = rowGet ra c := by
  unfold combineRow rowGet
  rw [lookup_append]
  have hfL : ∀ p : String × Val, p ∈ ra → (sufL bcols k p.1 = c ++ "_nslds" ↔ p.1 = c) := by
    intro p hp
    constructor
    · intro hx
      unfold sufL at hx
      split at hx
      · exact string_append_right_cancel hx
      · exact absurd (hx ▸ hwa p hp) hnla
    · intro hx
      rw [hx]
      unfold sufL
      rw [if_pos ⟨hkc, hcb⟩]
  rw [lookup_map_keys_mem _ _ _ ra hfL]
  cases hl : List.lookup c ra with
  | some v => rfl
  | none =>
    have hnone : List.lookup (c ++ "_nslds") ((rb.filter (fun p => decide (p.1 ≠ k))).map
        (fun p => (sufR acols k p.1, p.2))) = none := by
      apply lookup_eq_none_of_keys_ne
      intro p hp
      rcases List.mem_map.mp hp with ⟨q, hq, hqe⟩
      rcases List.mem_filter.mp hq with ⟨hqm, _⟩
      rw [← hqe]
      show sufR acols k q.1 ≠ c ++ "_nslds"
      unfold sufR
      split
      · exact sis_append_ne_nslds_append q.1 c
      · intro he
        exact absurd (he ▸ hwb q hqm) hnlb
    rw [hnone]

theorem rowGet_combineRow_right {acols bcols : List String} {k c : String} (ra rb : Row)
    (hkc : c ≠ k) (hca : c ∈ acols)
    (hwa : ∀ p ∈ ra, p.1 ∈ acols) (hwb : ∀ p ∈ rb, p.1 ∈ bcols)
    (hsa : (c ++ "_sis") ∉ acols) (hsb : (c ++ "_sis") ∉ bcols) :
    rowGet (combineRow acols bcols k ra rb) (c ++ "_sis") = rowGet rb c := by
  unfold combineRow rowGet
  rw [lookup_append]
  have hleft : List.lookup (c ++ "_sis") (ra.map (fun p => (sufL bcols k p.1, p.2))) =
      none := by
    apply lookup_eq_none_of_keys_ne
    intro p hp
    rcases List.mem_map.mp hp with ⟨q, hq, hqe⟩
    rw [← hqe]
    show sufL bcols k q.1 ≠ c ++ "_sis"
    unfold sufL
    split
    · exact nslds_append_ne_sis_append q.1 c
    · intro he
      exact absurd (he ▸ hwa q hq) hsa
  rw [hleft]
  have hfR : ∀ p : String × Val, p ∈ rb.filter (fun p => decide (p.1 ≠ k)) →
      (sufR acols k p.1 = c ++ "_sis" ↔ p.1 = c) := by
    intro p hp
    rcases List.mem_filter.mp hp with ⟨hpm, _⟩
    constructor
    · intro hx
      unfold sufR at hx
      split at hx
      · exact string_append_right_cancel hx
      · exact absurd (hx ▸ hwb p hpm) hsb
    · intro hx
      rw [hx]
      unfold sufR
      rw [if_pos ⟨hkc, hca⟩]
  rw [lookup_map_keys_mem _ _ _ _ hfR, lookup_filter_ne c k hkc]

theorem mergeOn_key_membership {a b : Table} {k : String}
    (hknl : ∀ c : String, c ++ "_nslds" ≠ k) (hks : ∀ c : String, c ++ "_sis" ≠ k) :
    ∀ v : Val, (∃ r ∈ (mergeOn a b k).rows, rowGet r k = v) ↔
      ((∃ ra ∈ a.rows, rowGet ra k = v) ∧ (∃ rb ∈ b.rows, rowGet rb k = v)) := by
  intro v
  constructor
  · rintro ⟨r, hr, hv⟩
    rcases mem_mergeOn_rows.mp hr with ⟨ra, hra, rb, hrb, hkey, rfl⟩
    rw [rowGet_combineRow_key ra rb hknl hks] at hv
    exact ⟨⟨ra, hra, hv⟩, ⟨rb, hrb, hkey.trans hv⟩⟩
  · rintro ⟨⟨ra, hra, hva⟩, ⟨rb, hrb, hvb⟩⟩
    refine ⟨combineRow a.cols b.cols k ra rb, ?_, ?_⟩
    · exact mem_mergeOn_rows.mpr ⟨ra, hra, rb, hrb, hvb.trans hva.symm, rfl⟩
    · rw [rowGet_combineRow_key ra rb hknl hks]
      exact hva

theorem mergePost_rows_get {merged t : Table} {us : ℕ → ℚ}
    (h : mergePost merged us = .ok t) :
    List.Forall₂ (fun r r2 => ∀ c : String, c ≠ "predictive_score" →
      c ≠ "predictive_tier" → rowGet r2 c = rowGet r c) merged.rows t.rows := by
  unfold mergePost at h
  split at h
  · rcases addPredictive_ok h with ⟨_, hf⟩
    refine List.Forall₂.imp ?_ hf
    intro r r2 hre
    rcases hre with ⟨s, hs⟩
    intro c hc1 hc2
    rw [hs, rowGet_set_ne _ _ _ _ hc2, rowGet_set_ne _ _ _ _ hc1]
  · cases h
    exact List.forall₂_same.mpr (fun r _ c _ _ => rfl)

theorem mergePost_key_membership {merged t : Table} {us : ℕ → ℚ} (k : String)
    (hk1 : k ≠ "predictive_score") (hk2 : k ≠ "predictive_tier")
    (h : mergePost merged us = .ok t) :
    ∀ v : Val, (∃ r ∈ t.rows, rowGet r k = v) ↔ (∃ r ∈ merged.rows, rowGet r k = v) := by
  have hf := mergePost_rows_get h
  intro v
  constructor
  · rintro ⟨r, hr, hv⟩
    rcases forall₂_mem_right hf r hr with ⟨r0, hr0, hre⟩
    exact ⟨r0, hr0, (hre k hk1 hk2) ▸ hv⟩
  · rintro ⟨r0, hr0, hv⟩
    rcases forall₂_mem_left hf r0 hr0 with ⟨r, hr, hre⟩
    exact ⟨r, hr, (hre k hk1 hk2).trans hv⟩

/-- C4: the join key is chosen by preferring `ssn` when present in both
tables, then `student_id`, and otherwise `merge_data` fails with the
no-common-key error instead of producing a table; with a key, the merge is an
inner join — a merged row carries a key value exactly when both inputs have a
row with that key value. -/
theorem C4_join_key (a b : Table) (us : ℕ → ℚ) :
    ((¬ ("ssn" ∈ a.cols ∧ "ssn" ∈ b.cols)) →
      (¬ ("student_id" ∈ a.cols ∧ "student_id" ∈ b.cols)) →
      merge_data a b us = .error "No common identifier found") ∧
    (("ssn" ∈ a.cols ∧ "ssn" ∈ b.cols) → ∀ t, merge_data a b us = .ok t →
      ∀ v : Val, (∃ r ∈ t.rows, rowGet r "ssn" = v) ↔
        ((∃ ra ∈ a.rows, rowGet ra "ssn" = v) ∧ (∃ rb ∈ b.rows, rowGet rb "ssn" = v))) ∧
    ((¬ ("ssn" ∈ a.cols ∧ "ssn" ∈ b.cols)) →
      ("student_id" ∈ a.cols ∧ "student_id" ∈ b.cols) →
      ∀ t, merge_data a b us = .ok t →
      ∀ v : Val, (∃ r ∈ t.rows, rowGet r "student_id" = v) ↔
        ((∃ ra ∈ a.rows, rowGet ra "student_id" = v) ∧
         (∃ rb ∈ b.rows, rowGet rb "student_id" = v))) := by
  refine ⟨?_, ?_, ?_⟩
  · intro hssn hsid
    unfold merge_data
    rw [if_neg hssn, if_neg hsid]
  · intro hssn t ht v
    unfold merge_data at ht
    rw [if_pos hssn] at ht
    rw [mergePost_key_membership "ssn" (by decide) (by decide) ht v]
    exact mergeOn_key_membership (append_suffix_ne _ _ (by decide))
      (append_suffix_ne _ _ (by decide)) v
  · intro hssn hsid t ht v
    unfold merge_data at ht
    rw [if_neg hssn, if_pos hsid] at ht
    rw [mergePost_key_membership "student_id" (by decide) (by decide) ht v]
    exact mergeOn_key_membership (append_suffix_ne _ _ (by decide))
      (append_suffix_ne _ _ (by decide)) v

/-- Delinquency rows with ssn keys 111 and 222. -/
def Tc4a : Table := Table.mk ["ssn", "days_delinquent"]
  [[("ssn", Val.num 111), ("days_delinquent", Val.num 10)],
   [("ssn", Val.num 222), ("days_delinquent", Val.num 45)]]

/-- Student rows with ssn keys 222 and 333. -/
def Tc4b : Table := Table.mk ["ssn", "major"]
  [[("ssn", Val.num 222), ("major", Val.str "CS")],
   [("ssn", Val.num 333), ("major", Val.str "Art")]]

theorem C4_join_key_witness :
    ((∃ r ∈ (mergeOn Tc4a Tc4b "ssn").rows, rowGet r "ssn" = Val.num 222) ↔
      ((∃ ra ∈ Tc4a.rows, rowGet ra "ssn" = Val.num 222) ∧
       (∃ rb ∈ Tc4b.rows, rowGet rb "ssn" = Val.num 222))) ∧
    merge_data Tc4a Tc4b usZero = .ok (mergeOn Tc4a Tc4b "ssn") ∧
    (mergeOn Tc4a Tc4b "ssn").rows.length = 1 := by
  have hm : merge_data Tc4a Tc4b usZero = .ok (mergeOn Tc4a Tc4b "ssn") := by
    with_unfolding_all decide
  refine ⟨?_, hm, by with_unfolding_all decide⟩
  exact (C4_join_key Tc4a Tc4b usZero).2.1 ⟨by decide, by decide⟩
    (mergeOn Tc4a Tc4b "ssn") hm (Val.num 222)

/-- C5 (amended): when both inputs carry the same canonical non-key column
(`first_name`, `last_name` or `email`), the merge does NOT reconcile the
duplicate: it keeps both values, the loan-side one under the `_nslds` suffix
and the student-side one under the `_sis` suffix, and the merged table has no
column under the plain name at all. -/
theorem C5_suffixed_columns (a b : Table) (us : ℕ → ℚ) (c : String)
    (hc : c = "first_name" ∨ c = "last_name" ∨ c = "email")
    (h1 : "ssn" ∈ a.cols) (h2 : "ssn" ∈ b.cols)
    (hca : c ∈ a.cols) (hcb : c ∈ b.cols)
    (hwa : ∀ r ∈ a.rows, ∀ p ∈ r, p.1 ∈ a.cols)
    (hwb : ∀ r ∈ b.rows, ∀ p ∈ r, p.1 ∈ b.cols)
    (hna : (c ++ "_nslds") ∉ a.cols) (hnb : (c ++ "_nslds") ∉ b.cols)
    (hsa : (c ++ "_sis") ∉ a.cols) (hsb : (c ++ "_sis") ∉ b.cols) :
    ∀ t, merge_data a b us = .ok t →
      ((c ++ "_nslds") ∈ t.cols ∧ (c ++ "_sis") ∈ t.cols ∧ c ∉ t.cols ∧
       ∀ r ∈ t.rows, ∃ ra ∈ a.rows, ∃ rb ∈ b.rows,
         rowGet r (c ++ "_nslds") = rowGet ra c ∧ rowGet r (c ++ "_sis") = rowGet rb c) := by
  have hck : c ≠ "ssn" := by
    rcases hc with rfl | rfl | rfl <;> decide
  have hcps : c ≠ "predictive_score" := by
    rcases hc with rfl | rfl | rfl <;> decide
  have hcpt : c ≠ "predictive_tier" := by
    rcases hc with rfl | rfl | rfl <;> decide
  have hnlc : ∀ x : String, x ++ "_nslds" ≠ c := by
    rcases hc with rfl | rfl | rfl <;> exact append_suffix_ne _ _ (by decide)
  have hsic : ∀ x : String, x ++ "_sis" ≠ c := by
    rcases hc with rfl | rfl | rfl <;> exact append_suffix_ne _ _ (by decide)
  have hnlps : ∀ x : String, x ++ "_nslds" ≠ "predictive_score" :=
    append_suffix_ne _ _ (by decide)
  have hnlpt : ∀ x : String, x ++ "_nslds" ≠ "predictive_tier" :=
    append_suffix_ne _ _ (by decide)
  have hsips : ∀ x : String, x ++ "_sis" ≠ "predictive_score" :=
    append_suffix_ne _ _ (by decide)
  have hsipt : ∀ x : String, x ++ "_sis" ≠ "predictive_tier" :=
    append_suffix_ne _ _ (by decide)
  intro t ht
  unfold merge_data at ht
  rw [if_pos ⟨h1, h2⟩] at ht
  have hsufcols : (c ++ "_nslds") ∈ (mergeOn a b "ssn").cols ∧
      (c ++ "_sis") ∈ (mergeOn a b "ssn").cols := by
    constructor
    · apply List.mem_append_left
      refine List.mem_map.mpr ⟨c, hca, ?_⟩
      unfold sufL
      rw [if_pos ⟨hck, hcb⟩]
    · apply List.mem_append_right
      refine List.mem_map.mpr ⟨c, ?_, ?_⟩
      · exact List.mem_filter.mpr ⟨hcb, decide_eq_true hck⟩
      · unfold sufR
        rw [if_pos ⟨hck, hca⟩]
  have hplain : c ∉ (mergeOn a b "ssn").cols := by
    intro hmem
    rcases List.mem_append.mp hmem with hm1 | hm2
    · rcases List.mem_map.mp hm1 with ⟨x, hx, hxe⟩
      unfold sufL at hxe
      split at hxe
      · exact hnlc x hxe
      · rename_i hcond
        rw [hxe] at hcond
        exact hcond ⟨hck, hcb⟩
    · rcases List.mem_map.mp hm2 with ⟨x, hx, hxe⟩
      rcases List.mem_filter.mp hx with ⟨hxb, hxk⟩
      unfold sufR at hxe
      split at hxe
      · exact hsic x hxe
      · rename_i hcond
        rw [hxe] at hcond
        exact hcond ⟨hck, hca⟩
  have hcolrel : t.cols = (mergeOn a b "ssn").cols ∨
      t.cols = (mergeOn a b "ssn").cols ++ ["predictive_score", "predictive_tier"] := by
    unfold mergePost at ht
    split at ht
    · rcases addPredictive_ok ht with ⟨hcols, _⟩
      exact Or.inr hcols
    · cases ht
      exact Or.inl rfl
  have hrows := mergePost_rows_get ht
  refine ⟨?_, ?_, ?_, ?_⟩
  · rcases hcolrel with he | he
    · rw [he]; exact hsufcols.1
    · rw [he]; exact List.mem_append_left _ hsufcols.1
  · rcases hcolrel with he | he
    · rw [he]; exact hsufcols.2
    · rw [he]; exact List.mem_append_left _ hsufcols.2
  · rcases hcolrel with he | he
    · rw [he]; exact hplain
    · rw [he]
      intro hmem
      rcases List.mem_append.mp hmem with hm1 | hm2
      · exact hplain hm1
      · rcases List.mem_cons.mp hm2 with he2 | he3
        · exact hcps he2
        · rcases List.mem_cons.mp he3 with he4 | he5
          · exact hcpt he4
          · cases he5
  · intro r hr
    rcases forall₂_mem_right hrows r hr with ⟨r0, hr0, hre⟩
    rcases mem_mergeOn_rows.mp hr0 with ⟨ra, hra, rb, hrb, hkey, rfl⟩
    refine ⟨ra, hra, rb, hrb, ?_, ?_⟩
    · rw [hre (c ++ "_nslds") (fun he => hnlps c he) (fun he => hnlpt c he)]
      exact rowGet_combineRow_left ra rb hck hcb (hwa ra hra) (hwb rb hrb) hna hnb
    · rw [hre (c ++ "_sis") (fun he => hsips c he) (fun he => hsipt c he)]
      exact rowGet_combineRow_right ra rb hck hca (hwa ra hra) (hwb rb hrb) hsa hsb

/-- A loan table and a student table both carrying `first_name`, with
different present values for the shared ssn key. -/
def Tc5a : Table := Table.mk ["ssn", "first_name"]
  [[("ssn", Val.num 1), ("first_name", Val.str "Ann")]]

def Tc5b : Table := Table.mk ["ssn", "first_name"]
  [[("ssn", Val.num 1), ("first_name", Val.str "Bea")]]

/-- C5 counterexample: merging two tables that both carry a present
`first_name` produces NO reconciled `first_name` at all — the merged row has
no `first_name` entry and no such column, while both the primary value
("Ann", under `first_name_nslds`) and the secondary value ("Bea", under
`first_name_sis`) are kept; the secondary value is carried even though the
primary one is present, so no preference/fallback reconciliation happens. -/
theorem C5_claim_counterexample :
    (merge_data Tc5a Tc5b usZero).map (fun t => t.rows.map (fun r =>
      (List.lookup "first_name" r, rowGet r "first_name_nslds", rowGet r "first_name_sis"))) =
      .ok [(none, Val.str "Ann", Val.str "Bea")] ∧
    (merge_data Tc5a Tc5b usZero).map (fun t => decide ("first_name" ∈ t.cols)) =
      .ok false := by
  constructor <;> with_unfolding_all decide

theorem C5_suffixed_columns_witness :
    ("first_name" ++ "_nslds") ∈ (mergeOn Tc5a Tc5b "ssn").cols ∧
    ("first_name" ++ "_sis") ∈ (mergeOn Tc5a Tc5b "ssn").cols ∧
    "first_name" ∉ (mergeOn Tc5a Tc5b "ssn").cols ∧
    ∀ r ∈ (mergeOn Tc5a Tc5b "ssn").rows, ∃ ra ∈ Tc5a.rows, ∃ rb ∈ Tc5b.rows,
      rowGet r ("first_name" ++ "_nslds") = rowGet ra "first_name" ∧
      rowGet r ("first_name" ++ "_sis") = rowGet rb "first_name" :=
  C5_suffixed_columns Tc5a Tc5b usZero "first_name" (Or.inl rfl)
    (by decide) (by decide) (by decide) (by decide) (by decide) (by decide)
    (by decide) (by decide) (by decide) (by decide)
    (mergeOn Tc5a Tc5b "ssn") (by with_unfolding_all decide)

theorem perm_insertBy {α : Type} (le : α → α → Bool) (x : α) :
    ∀ l : List α, (insertBy le x l).Perm (x :: l) := by
  intro l
  induction l with
  | nil => exact List.Perm.refl _
  | cons y ys ih =>
    unfold insertBy
    cases h : le x y with
    | true => simp [h]
    | false =>
      simp only [h, Bool.false_eq_true, if_false]
      exact (ih.cons y).trans (List.Perm.swap x y ys)

theorem perm_sortBy {α : Type} (le : α → α → Bool) :
    ∀ l : List α, (sortBy le l).Perm l := by
  intro l
  induction l with
  | nil => exact List.Perm.refl _
  | cons x xs ih =>
    exact (perm_insertBy le x (sortBy le xs)).trans (ih.cons x)

theorem pairwise_insertBy {α : Type} (le : α → α → Bool)
    (htot : ∀ x y, le x y = false → le y x = true)
    (htrans : ∀ x y z, le x y = true → le y z = true → le x z = true)
    (x : α) : ∀ l : List α, l.Pairwise (fun a b => le a b = true) →
      (insertBy le x l).Pairwise (fun a b => le a b = true) := by
  intro l
  induction l with
  | nil =>
    intro _
    simp [insertBy]
  | cons y ys ih =>
    intro h
    rcases List.pairwise_cons.mp h with ⟨hy, hys⟩
    unfold insertBy
    cases hxy : le x y with
    | true =>
      simp only [if_true]
      refine List.pairwise_cons.mpr ⟨?_, h⟩
      intro z hz
      rcases List.mem_cons.mp hz with he | hz2
      · rw [he]
        exact hxy
      · exact htrans x y z hxy (hy z hz2)
    | false =>
      simp only [Bool.false_eq_true, if_false]
      refine List.pairwise_cons.mpr ⟨?_, ih hys⟩
      intro z hz
      have hz2 : z ∈ x :: ys := (perm_insertBy le x ys).mem_iff.mp hz
      rcases List.mem_cons.mp hz2 with he | hz3
      · rw [he]
        exact htot x y hxy
      · exact hy z hz3

theorem pairwise_sortBy {α : Type} (le : α → α → Bool)
    (htot : ∀ x y, le x y = false → le y x = true)
    (htrans : ∀ x y z, le x y = true → le y z = true → le x z = true) :
    ∀ l : List α, (sortBy le l).Pairwise (fun a b => le a b = true) := by
  intro l
  induction l with
  | nil => exact List.Pairwise.nil
  | cons x xs ih => exact pairwise_insertBy le htot htrans x _ ih

theorem enumFrom_map_snd {α : Type} : ∀ (l : List α) (n : ℕ),
    (List.enumFrom n l).map Prod.snd = l := by
  intro l
  induction l with
  | nil => intro n; rfl
  | cons a l ih => intro n; simp [List.enumFrom, ih]

theorem mkAggRow_major (t : Table) (d : ℚ) (m : Val) : (mkAggRow t d m).major = m := rfl

theorem mkAggRow_avg_risk (t : Table) (d : ℚ) (m : Val) :
    (mkAggRow t d m).avg_risk = round2 (listMean (numsOf (groupRows t m) "risk_score")) := rfl

theorem mkAggRow_count (t : Table) (d : ℚ) (m : Val) :
    (mkAggRow t d m).student_count = countNonNa (groupRows t m) "risk_score" := rfl

theorem mkAggRow_avg_balance (t : Table) (d : ℚ) (m : Val) :
    (mkAggRow t d m).avg_balance =
      round2 (listMean (numsOf (groupRows t m) "outstanding_balance")) := rfl

theorem mkAggRow_total_balance (t : Table) (d : ℚ) (m : Val) :
    (mkAggRow t d m).total_balance =
      round2 ((numsOf (groupRows t m) "outstanding_balance").sum) := rfl

theorem mkAggRow_avg_del (t : Table) (d : ℚ) (m : Val) :
    (mkAggRow t d m).avg_delinquent_days =
      round2 (listMean (numsOf (groupRows t m) "days_delinquent")) := rfl

theorem mkAggRow_tier (t : Table) (d : ℚ) (m : Val) :
    (mkAggRow t d m).risk_tier =
      get_risk_tier (round2 (listMean (numsOf (groupRows t m) "risk_score"))) := rfl

theorem aggList_map_major (t : Table) (sal : ℕ → ℚ) :
    (aggListOf t sal).map AggRow.major = sortBy valLe (firstDedup (majorsOf t)) := by
  unfold aggListOf
  rw [List.map_map]
  have he : (AggRow.major ∘ fun p : ℕ × Val => mkAggRow t (sal p.1) p.2) = Prod.snd := by
    funext p
    rfl
  rw [he]
  exact enumFrom_map_snd _ 0

/-- C6 (amended): with the grouping and aggregation columns present and no
string cell in the aggregated columns, `analyze_by_major` returns one
aggregate row per distinct (non-NaN) `major` value, carrying the
2-decimal-rounded mean risk, the non-NaN risk count, the rounded mean and sum
of outstanding balance, the rounded mean delinquency days, and a group tier
obtained by applying the step function to the rounded mean risk; the rows are
ordered by descending (rounded) mean risk.  The tie-break does NOT preserve
the discovery order: `groupby` sorts the group keys ascending and the
descending sort reverses an ascending stable sort, so equal means come out in
reverse of the sorted key order.  A string cell in `risk_score`,
`outstanding_balance` or `days_delinquent` instead makes the mean/sum
aggregation raise `TypeError`, which propagates out of `analyze_by_major`
uncaught. -/
theorem C6_aggregation (t : Table) (sal : ℕ → ℚ)
    (hm : "major" ∈ t.cols) (hr : "risk_score" ∈ t.cols)
    (hb : "outstanding_balance" ∈ t.cols) (hd : "days_delinquent" ∈ t.cols) :
    ((hasStrCell t.rows "risk_score" ∨ hasStrCell t.rows "outstanding_balance" ∨
      hasStrCell t.rows "days_delinquent") →
      analyze_by_major (some t) sal =
        .error "TypeError: agg function failed on non-numeric column") ∧
    (hasStrCell t.rows "risk_score" = false →
     hasStrCell t.rows "outstanding_balance" = false →
     hasStrCell t.rows "days_delinquent" = false →
    ∃ l, analyze_by_major (some t) sal = .ok (some l) ∧
      List.Pairwise (fun x y : AggRow => y.avg_risk ≤ x.avg_risk) l ∧
      (∀ g ∈ l,
        g.avg_risk = round2 (listMean (numsOf (groupRows t g.major) "risk_score")) ∧
        g.student_count = countNonNa (groupRows t g.major) "risk_score" ∧
        g.avg_balance = round2 (listMean (numsOf (groupRows t g.major) "outstanding_balance")) ∧
        g.total_balance = round2 ((numsOf (groupRows t g.major) "outstanding_balance").sum) ∧
        g.avg_delinquent_days =
          round2 (listMean (numsOf (groupRows t g.major) "days_delinquent")) ∧
        g.risk_tier = get_risk_tier g.avg_risk) ∧
      (l.map AggRow.major).Perm (firstDedup (majorsOf t))) := by
  constructor
  · intro hstr
    simp only [analyze_by_major]
    rw [if_pos hm, if_pos ⟨hr, hb, hd⟩, if_pos hstr]
  intro hs1 hs2 hs3
  refine ⟨(sortBy (fun x y : AggRow => decide (x.avg_risk ≤ y.avg_risk))
    (aggListOf t sal)).reverse, ?_, ?_, ?_, ?_⟩
  · simp only [analyze_by_major]
    rw [if_pos hm, if_pos ⟨hr, hb, hd⟩, if_neg (by simp [hs1, hs2, hs3])]
  · apply List.pairwise_reverse.mpr
    have hs := pairwise_sortBy (fun x y : AggRow => decide (x.avg_risk ≤ y.avg_risk))
      (fun x y hxy => decide_eq_true (le_of_not_le (of_decide_eq_false hxy)))
      (fun x y z h1 h2 => decide_eq_true
        (le_trans (of_decide_eq_true h1) (of_decide_eq_true h2)))
      (aggListOf t sal)
    refine List.Pairwise.imp ?_ hs
    intro a b hab
    exact of_decide_eq_true hab
  · intro g hg
    have hg2 : g ∈ sortBy (fun x y : AggRow => decide (x.avg_risk ≤ y.avg_risk))
        (aggListOf t sal) := List.mem_reverse.mp hg
    have hg3 : g ∈ aggListOf t sal := (perm_sortBy _ _).mem_iff.mp hg2
    rcases List.mem_map.mp hg3 with ⟨p, hp, he⟩
    rw [← he]
    refine ⟨?_, ?_, ?_, ?_, ?_, ?_⟩ <;>
      simp [mkAggRow_major, mkAggRow_avg_risk, mkAggRow_count, mkAggRow_avg_balance,
        mkAggRow_total_balance, mkAggRow_avg_del, mkAggRow_tier]
  · have h1 : ((sortBy (fun x y : AggRow => decide (x.avg_risk ≤ y.avg_risk))
        (aggListOf t sal)).reverse.map AggRow.major).Perm
        ((sortBy (fun x y : AggRow => decide (x.avg_risk ≤ y.avg_risk))
          (aggListOf t sal)).map AggRow.major) := by
      rw [List.map_reverse]
      exact List.reverse_perm _
    have h2 : ((sortBy (fun x y : AggRow => decide (x.avg_risk ≤ y.avg_risk))
        (aggListOf t sal)).map AggRow.major).Perm ((aggListOf t sal).map AggRow.major) :=
      (perm_sortBy _ _).map _
    have h3 : ((aggListOf t sal).map AggRow.major).Perm (firstDedup (majorsOf t)) := by
      rw [aggList_map_major]
      exact perm_sortBy _ _
    exact (h1.trans h2).trans h3

/-- Two majors discovered in the order Alpha, Zeta with equal mean risk. -/
def Tc6 : Table := Table.mk ["major", "risk_score", "outstanding_balance", "days_delinquent"]
  [[("major", Val.str "Alpha"), ("risk_score", Val.num 0.5),
    ("outstanding_balance", Val.num 100), ("days_delinquent", Val.num 10)],
   [("major", Val.str "Zeta"), ("risk_score", Val.num 0.5),
    ("outstanding_balance", Val.num 200), ("days_delinquent", Val.num 20)]]

/-- C6 counterexample: with groups discovered in the order Alpha, Zeta and
equal mean risk 0.5, the result comes out `[Zeta, Alpha]` — the `groupby`
sorts keys to `[Alpha, Zeta]` and the descending sort reverses the ascending
order, so the tie-break does not preserve the discovery order `[Alpha,
Zeta]`. -/
theorem C6_claim_counterexample :
    (analyze_by_major (some Tc6) usZero).map (fun o => o.map (fun l =>
      l.map AggRow.major)) = .ok (some [Val.str "Zeta", Val.str "Alpha"]) ∧
    (analyze_by_major (some Tc6) usZero).map (fun o => o.map (fun l =>
      l.map AggRow.major)) ≠ .ok (some [Val.str "Alpha", Val.str "Zeta"]) := by
  constructor <;> with_unfolding_all decide

/-- The spec example: two CS rows with mean risk 0.8 and one Art row with
risk 0.2. -/
def Tc6w : Table := Table.mk ["major", "risk_score", "outstanding_balance", "days_delinquent"]
  [[("major", Val.str "CS"), ("risk_score", Val.num 0.9),
    ("outstanding_balance", Val.num 100), ("days_delinquent", Val.num 10)],
   [("major", Val.str "CS"), ("risk_score", Val.num 0.7),
    ("outstanding_balance", Val.num 100), ("days_delinquent", Val.num 10)],
   [("major", Val.str "Art"), ("risk_score", Val.num 0.2),
    ("outstanding_balance", Val.num 50), ("days_delinquent", Val.num 0)]]

theorem C6_aggregation_witness :
    (∃ l, analyze_by_major (some Tc6w) usZero = .ok (some l)) ∧
    (analyze_by_major (some Tc6w) usZero).map (fun o => o.map (fun l =>
      l.map (fun g => (g.major, g.avg_risk, g.risk_tier, g.student_count)))) =
      .ok (some [(Val.str "CS", (0.8 : ℚ), "HIGH", 2), (Val.str "Art", (0.2 : ℚ), "LOW", 1)]) := by
  constructor
  · rcases (C6_aggregation Tc6w usZero (by decide) (by decide) (by decide)
      (by decide)).2 (by decide) (by decide) (by decide) with ⟨l, hl, _⟩
    exact ⟨l, hl⟩
  · with_unfolding_all decide

end ChartedPortal
